import Mathlib

/-
  Shallow embedding of the rendering core of the foot terminal emulator
  (render.c): per-cell compositing, selection membership, scroll damage,
  the frame driver grid_render, and resize reflow.  Machine integers are
  modelled as Nat/Int; pixel surfaces as total functions from coordinates
  to colors; pixman composite operations by their arithmetic on 16-bit
  channels.
-/

namespace Foot

/-- A pixman color: four 16-bit channels, as in pixman_color_t. -/
structure PColor where
  red : Nat
  green : Nat
  blue : Nat
  alpha : Nat
deriving DecidableEq

/-- Embedding of color_hex_to_pixman_with_alpha: expand a 24-bit RGB word to
16-bit channels and divide by 0xffff/alpha. -/
def color_hex_to_pixman_with_alpha (color alpha : Nat) : PColor :=
  let alpha_div := 0xffff / alpha
  { red := (((color >>> 16) &&& 0xff) ||| ((color >>> 8) &&& 0xff00)) / alpha_div
    green := (((color >>> 8) &&& 0xff) ||| (color &&& 0xff00)) / alpha_div
    blue := ((color &&& 0xff) ||| ((color <<< 8) &&& 0xff00)) / alpha_div
    alpha := alpha }

/-- Embedding of color_hex_to_pixman (full alpha). -/
def color_hex_to_pixman (color : Nat) : PColor :=
  color_hex_to_pixman_with_alpha color 0xffff

/-- Embedding of pixman_color_dim: halve the color channels. -/
def pixman_color_dim (c : PColor) : PColor :=
  { c with red := c.red / 2, green := c.green / 2, blue := c.blue / 2 }

/-- A pixel surface: colors indexed by (x, y). -/
abbrev Pix := Int → Int → PColor

/-- Semantics of pixman_image_fill_rectangles with PIXMAN_OP_SRC. -/
def fill_rect (p : Pix) (c : PColor) (x y w h : Int) : Pix :=
  fun i j => if x ≤ i ∧ i < x + w ∧ y ≤ j ∧ j < y + h then c else p i j

/-- OVER-composite of an opaque solid source through an 8-bit coverage mask
value m onto destination d, channelwise. -/
def over_mask (s : PColor) (m : Nat) (d : PColor) : PColor :=
  { red := (s.red * m + d.red * (255 - m)) / 255
    green := (s.green * m + d.green * (255 - m)) / 255
    blue := (s.blue * m + d.blue * (255 - m)) / 255
    alpha := (s.alpha * m + d.alpha * (255 - m)) / 255 }

/-- OVER-composite of a premultiplied source pixel s onto destination d. -/
def over_image (s d : PColor) : PColor :=
  { red := s.red + d.red * (0xffff - s.alpha) / 0xffff
    green := s.green + d.green * (0xffff - s.alpha) / 0xffff
    blue := s.blue + d.blue * (0xffff - s.alpha) / 0xffff
    alpha := s.alpha + d.alpha * (0xffff - s.alpha) / 0xffff }

/-- Semantics of pixman_image_composite OVER of a solid fill through an
alpha-mask glyph surface placed at (dx, dy) with extent (w, h). -/
def composite_mask (p : Pix) (s : PColor) (cov : Int → Int → Nat)
    (dx dy w h : Int) : Pix :=
  fun i j =>
    if dx ≤ i ∧ i < dx + w ∧ dy ≤ j ∧ j < dy + h then
      over_mask s (cov (i - dx) (j - dy)) (p i j)
    else p i j

/-- Semantics of pixman_image_composite OVER of a pre-rendered ARGB glyph
surface placed at (dx, dy) with extent (w, h). -/
def composite_image (p : Pix) (img : Int → Int → PColor)
    (dx dy w h : Int) : Pix :=
  fun i j =>
    if dx ≤ i ∧ i < dx + w ∧ dy ≤ j ∧ j < dy + h then
      over_image (img (i - dx) (j - dy)) (p i j)
    else p i j

/-- Semantics of pixman_image_fill_rectangles with PIXMAN_OP_OVER and a
premultiplied color (used for the flash tint). -/
def fill_over (p : Pix) (c : PColor) (x y w h : Int) : Pix :=
  fun i j => if x ≤ i ∧ i < x + w ∧ y ≤ j ∧ j < y + h then over_image c (p i j) else p i j

inductive CursorStyle where
  | block
  | underline
  | bar
deriving DecidableEq

inductive BlinkState where
  | on
  | off
deriving DecidableEq

/-- struct coord: a (column, row) pair with int fields; col = -1 is the
inactive-selection sentinel. -/
structure Coord where
  col : Int
  row : Int
deriving DecidableEq

/-- The cursor position (term->cursor): always within the viewport. -/
structure CPos where
  col : Nat
  row : Nat
deriving DecidableEq

structure Selection where
  start : Coord
  end' : Coord
deriving DecidableEq

structure Colors where
  fg : Nat
  bg : Nat
  alpha : Nat
deriving DecidableEq

/-- term->cursor_color; the high bit (bit 31) of each word means "set". -/
structure CursorColor where
  text : Nat
  cursor : Nat
deriving DecidableEq

structure FontDeco where
  position : Int
  thickness : Int
deriving DecidableEq

structure FExtents where
  height : Int
  ascent : Int
  descent : Int
deriving DecidableEq

/-- A glyph surface is either an 8-bit alpha mask or a pre-rendered
a8r8g8b8 image. -/
inductive GlyphSurf where
  | mask (cov : Int → Int → Nat)
  | image (img : Int → Int → PColor)

structure Glyph where
  surf : GlyphSurf
  x : Int
  y : Int
  width : Int
  height : Int
  cols : Int

structure Font where
  glyphs : Nat → Option Glyph
  underline : FontDeco
  strikeout : FontDeco

/-- Cell attributes, one field per bit of struct attributes. -/
structure Attrs where
  bold : Bool := false
  italic : Bool := false
  underline : Bool := false
  strikethrough : Bool := false
  blink : Bool := false
  reverse : Bool := false
  conceal : Bool := false
  dim : Bool := false
  clean : Bool := false
  have_fg : Bool := false
  have_bg : Bool := false
  fg : Nat := 0
  bg : Nat := 0
deriving DecidableEq

structure Cell where
  wc : Nat := 0
  attrs : Attrs := {}
deriving DecidableEq

/-- A grid row: its cells (indexed by column) and the dirty bit. -/
structure Row where
  cells : Nat → Cell
  dirty : Bool

inductive DamageKind where
  | scroll
  | scroll_reverse
deriving DecidableEq

/-- A scroll damage record: region [start, stop) scrolled by lines. -/
structure Damage where
  kind : DamageKind
  start : Nat
  stop : Nat
  lines : Nat
deriving DecidableEq

/-- The ring grid: rows indexed mod num_rows, with write head offset and
scroll position view, plus the per-grid scroll damage log. -/
structure Grid where
  rows : Nat → Row
  num_rows : Nat
  offset : Nat
  view : Nat
  scroll_damage : List Damage

structure Blink where
  active : Bool
  state : BlinkState
deriving DecidableEq

/-- term->render: remembered cursor cell (by its in-view coordinates; the C
code stores a pointer to that cell), last actual cursor position, last
in-view cursor position, last buffer, and the was-flashing bit. -/
structure RenderSt where
  last_cursor_cell : Option (Nat × Nat)
  last_cursor_actual : CPos
  last_cursor_in_view : Nat × Nat
  last_buf : Nat
  was_flashing : Bool
deriving DecidableEq

/-- The terminal state: everything grid_render and render_cell read. -/
structure Term where
  grid : Grid
  rows : Nat
  cols : Nat
  cell_width : Int
  cell_height : Int
  width : Int
  height : Int
  colors : Colors
  cursor_color : CursorColor
  cursor : CPos
  cursor_style : CursorStyle
  hide_cursor : Bool
  reverse : Bool
  selection : Selection
  blink : Blink
  flash_active : Bool
  fonts : Nat → Font
  fextents : FExtents
  render : RenderSt

/-- Embedding of attrs_to_font: font index italic << 1 | bold. -/
def attrs_to_font (term : Term) (attrs : Attrs) : Font :=
  term.fonts ((if attrs.italic then 2 else 0) + (if attrs.bold then 1 else 0))

/-- Embedding of coord_is_selected (render.c): decide whether viewport
coordinate (col, row) lies in the current selection.  The probed row is
row + view, with no modular reduction; endpoints are normalized so that
start ≤ end lexicographically by (row, col). -/
def coord_is_selected (term : Term) (col row : Int) : Bool :=
  if term.selection.start.col = -1 ∨ term.selection.end'.col = -1 then
    false
  else
    let s := term.selection.start
    let e := term.selection.end'
    let p := if s.row > e.row ∨ (s.row = e.row ∧ s.col > e.col) then (e, s) else (s, e)
    let row := row + (term.grid.view : Int)
    if p.1.row = p.2.row then
      decide (row = p.1.row ∧ p.1.col ≤ col ∧ col ≤ p.2.col)
    else if row = p.1.row then
      decide (p.1.col ≤ col)
    else if row = p.2.row then
      decide (col ≤ p.2.col)
    else
      decide (p.1.row ≤ row ∧ row ≤ p.2.row)

/-- The block_cursor flag of render_cell: has_cursor and the cursor style is
Block. -/
def block_cursor_flag (term : Term) (has_cursor : Bool) : Bool :=
  has_cursor && decide (term.cursor_style = CursorStyle.block)

/-- Whether the blink phase is Off (term->blink.state == BLINK_OFF). -/
def blink_off (term : Term) : Bool :=
  decide (term.blink.state = BlinkState.off)

/-- Whether the user configured a cursor color (high bit of cursor_color.text). -/
def cursor_override (term : Term) : Bool :=
  decide (term.cursor_color.text >>> 31 ≠ 0)

/-- Base foreground of render_cell before any reversing: the cell color when
have_fg, else the palette fg (bg under global reverse video). -/
def base_fg (term : Term) (attrs : Attrs) : Nat :=
  if attrs.have_fg then attrs.fg
  else if !term.reverse then term.colors.fg else term.colors.bg

/-- Base background of render_cell before any reversing. -/
def base_bg (term : Term) (attrs : Attrs) : Nat :=
  if attrs.have_bg then attrs.bg
  else if !term.reverse then term.colors.bg else term.colors.fg

/-- The (fg, bg) pair of render_cell after the three-way-XOR swap of
block_cursor, cell reverse and selection membership. -/
def resolved_colors (term : Term) (attrs : Attrs) (block_cursor selected : Bool) :
    Nat × Nat :=
  if Bool.xor (Bool.xor block_cursor attrs.reverse) selected then
    (base_bg term attrs, base_fg term attrs)
  else
    (base_fg term attrs, base_bg term attrs)

/-- Embedding of draw_bar: a 1-pixel-wide, cell-height fill. -/
def draw_bar (term : Term) (pix : Pix) (color : PColor) (x y : Int) : Pix :=
  fill_rect pix color x y 1 term.cell_height

/-- Embedding of draw_underline: a thickness-high band below the baseline. -/
def draw_underline (term : Term) (pix : Pix) (font : Font) (color : PColor)
    (x y : Int) (cols : Int) : Pix :=
  let baseline := y + term.fextents.height - term.fextents.descent
  let w := font.underline.thickness
  let y_under := baseline - font.underline.position - w / 2
  fill_rect pix color x y_under (cols * term.cell_width) w

/-- Embedding of draw_strikeout. -/
def draw_strikeout (term : Term) (pix : Pix) (font : Font) (color : PColor)
    (x y : Int) (cols : Int) : Pix :=
  let baseline := y + term.fextents.height - term.fextents.descent
  let w := font.strikeout.thickness
  let y_strike := baseline - font.strikeout.position - w / 2
  fill_rect pix color x y_strike (cols * term.cell_width) w

/-- Result of render_cell: the returned column count, the resulting
blink-timer-armed flag (term->blink.active), the updated cell, and the
updated pixel surface. -/
structure RCOut where
  cols : Int
  blink_active : Bool
  cell : Cell
  pix : Pix

/-- Embedding of render_cell (render.c): paint one cell of the viewport at
(col, row) onto pix.  Returns 0 and leaves everything untouched when the
cell is clean; otherwise sets clean, resolves colors (reverse XOR chain,
blink-off, dim, block-cursor palette override), fills the background,
draws bar/underline cursors, arms the blink timer, and composites the
glyph and underline/strikethrough decorations. -/
def render_cell (term : Term) (pix : Pix) (cell : Cell) (col row : Nat)
    (has_cursor : Bool) : RCOut :=
  if cell.attrs.clean then
    ⟨0, term.blink.active, cell, pix⟩
  else
    let cell := { cell with attrs := { cell.attrs with clean := true } }
    let width := term.cell_width
    let height := term.cell_height
    let x := (col : Int) * width
    let y := (row : Int) * height
    let block_cursor := block_cursor_flag term has_cursor
    let is_selected := coord_is_selected term (col : Int) (row : Int)
    let fgbg := resolved_colors term cell.attrs block_cursor is_selected
    let ufg := if cell.attrs.blink && blink_off term then fgbg.2 else fgbg.1
    let ubg := fgbg.2
    let fg := color_hex_to_pixman ufg
    let bg := color_hex_to_pixman_with_alpha ubg
      (if block_cursor then 0xffff else term.colors.alpha)
    let fg := if cell.attrs.dim then pixman_color_dim fg else fg
    let fg := if block_cursor && cursor_override term then
        color_hex_to_pixman term.cursor_color.text else fg
    let bg := if block_cursor && cursor_override term then
        color_hex_to_pixman term.cursor_color.cursor else bg
    let font := attrs_to_font term cell.attrs
    let glyph := font.glyphs cell.wc
    let cell_cols : Int := match glyph with
      | some g => max 1 g.cols
      | none => 1
    let pix := fill_rect pix bg x y (cell_cols * width) height
    let pix :=
      if has_cursor then
        let cursor_color := if cursor_override term then
            color_hex_to_pixman term.cursor_color.cursor
          else
            color_hex_to_pixman ufg
        if term.cursor_style = CursorStyle.bar then
          draw_bar term pix cursor_color x y
        else if term.cursor_style = CursorStyle.underline then
          draw_underline term pix font cursor_color x y cell_cols
        else pix
      else pix
    let blink_active := if cell.attrs.blink && !term.blink.active then true
      else term.blink.active
    if cell.wc = 0 || cell.attrs.conceal then
      ⟨cell_cols, blink_active, cell, pix⟩
    else
      let pix :=
        match glyph with
        | none => pix
        | some g =>
          match g.surf with
          | GlyphSurf.image img =>
            if !(cell.attrs.blink && blink_off term) then
              composite_image pix img (x + g.x)
                (y + term.fextents.ascent - g.y) g.width g.height
            else pix
          | GlyphSurf.mask cov =>
            composite_mask pix fg cov (x + g.x)
              (y + term.fextents.ascent - g.y) g.width g.height
      let pix := if cell.attrs.underline then
          draw_underline term pix font (color_hex_to_pixman ufg) x y cell_cols
        else pix
      let pix := if cell.attrs.strikethrough then
          draw_strikeout term pix font (color_hex_to_pixman ufg) x y cell_cols
        else pix
      ⟨cell_cols, blink_active, cell, pix⟩

/-- Semantics of memmove on a byte buffer: bytes [dst, dst+len) receive the
former contents of [src, src+len); everything else is unchanged. -/
def memmove (b : Nat → Nat) (dst src len : Nat) : Nat → Nat :=
  fun i => if dst ≤ i ∧ i < dst + len then b (src + (i - dst)) else b i

/-- Embedding of grid_render_scroll (render.c) at the byte level: for a
Scroll damage over region [s, e) by k lines, memmove
(e - s - k) * cell_height * stride bytes from y-offset (s+k)*cell_height
up to y-offset s*cell_height, provided the height is positive. -/
def grid_render_scroll_bytes (ch stride s e k : Nat) (b : Nat → Nat) :
    Nat → Nat :=
  let dst_y := (s + 0) * ch
  let src_y := (s + k) * ch
  let height : Int := ((e : Int) - (s : Int) - (k : Int)) * (ch : Int)
  if 0 < height then
    memmove b (dst_y * stride) (src_y * stride) (height.toNat * stride)
  else b

/-- Formalisation of the claim's description of scroll damage: move
(e - s - k) rows of pixels upward by k rows; each destination byte in rows
[s, e-k) takes the byte k rows below it. -/
def rows_moved_up (ch stride s e k : Nat) (b : Nat → Nat) : Nat → Nat :=
  fun i =>
    if s + k < e ∧ s * ch * stride ≤ i ∧ i < (e - k) * ch * stride then
      b (i + k * ch * stride)
    else b i

/-- The all-zero cell written by the reflow memset. -/
def zero_cell : Cell := {}

/-- A grid row for the resize model: a cell list plus the dirty bit. -/
structure RowL where
  cells : List Cell
  dirty : Bool
deriving DecidableEq

/-- One row's reflow: copy min(new_cols, old_cols) cells from the old row
and zero-fill the remaining new_cols - copy_cols cells; the dirty bit is
copied. -/
def reflow_row (new_cols old_cols : Nat) (old : RowL) : RowL :=
  { cells := old.cells.take (min new_cols old_cols) ++
      List.replicate (new_cols - min new_cols old_cols) zero_cell
    dirty := old.dirty }

/-- Embedding of reflow (render.c): for each row index r below
min(new_rows, old_rows) whose old row exists, replace the new grid's row r
by the reflowed old row; all other entries of the new grid are untouched. -/
def reflow (new_grid : Nat → Option RowL) (new_cols new_rows : Nat)
    (old_grid : Nat → Option RowL) (old_cols old_rows : Nat) :
    Nat → Option RowL :=
  fun r =>
    if r < min new_rows old_rows then
      match old_grid r with
      | none => new_grid r
      | some o => some (reflow_row new_cols old_cols o)
    else new_grid r

/-- Formalisation of C3's membership rule exactly as the claim words it:
the probed grid row is (row + view) mod num_rows, endpoints normalized so
start ≤ end lexicographically by (row, col), single-row and multi-row
membership as stated. -/
def claim_selected_mod (term : Term) (col row : Int) : Bool :=
  if term.selection.start.col = -1 ∨ term.selection.end'.col = -1 then
    false
  else
    let s := term.selection.start
    let e := term.selection.end'
    let p := if s.row > e.row ∨ (s.row = e.row ∧ s.col > e.col) then (e, s) else (s, e)
    let r := (row + (term.grid.view : Int)) % (term.grid.num_rows : Int)
    if p.1.row = p.2.row then
      decide (r = p.1.row ∧ p.1.col ≤ col ∧ col ≤ p.2.col)
    else if r = p.1.row then
      decide (p.1.col ≤ col)
    else if r = p.2.row then
      decide (col ≤ p.2.col)
    else
      decide (p.1.row < r ∧ r < p.2.row)

/-- The amended C3 membership rule: as the claim words it, but the probed
grid row is row + view with no modular reduction, matching the source. -/
def selected_nomod (term : Term) (col row : Int) : Bool :=
  if term.selection.start.col = -1 ∨ term.selection.end'.col = -1 then
    false
  else
    let s := term.selection.start
    let e := term.selection.end'
    let p := if s.row > e.row ∨ (s.row = e.row ∧ s.col > e.col) then (e, s) else (s, e)
    let r := row + (term.grid.view : Int)
    if p.1.row = p.2.row then
      decide (r = p.1.row ∧ p.1.col ≤ col ∧ col ≤ p.2.col)
    else if r = p.1.row then
      decide (p.1.col ≤ col)
    else if r = p.2.row then
      decide (col ≤ p.2.col)
    else
      decide (p.1.row < r ∧ r < p.2.row)

/-- Formalisation of the claim's comparison target for C8: rendering the
same cell with no glyph at all, i.e. the wc == 0 path of render_cell —
background fill (one cell wide) plus any non-block cursor decoration, with
the same color resolution, and nothing else. -/
def background_only_render (term : Term) (pix : Pix) (cell : Cell)
    (col row : Nat) (has_cursor : Bool) : Pix :=
  if cell.attrs.clean then pix
  else
    let x := (col : Int) * term.cell_width
    let y := (row : Int) * term.cell_height
    let block_cursor := block_cursor_flag term has_cursor
    let is_selected := coord_is_selected term (col : Int) (row : Int)
    let fgbg := resolved_colors term cell.attrs block_cursor is_selected
    let ufg := if cell.attrs.blink && blink_off term then fgbg.2 else fgbg.1
    let ubg := fgbg.2
    let bg := color_hex_to_pixman_with_alpha ubg
      (if block_cursor then 0xffff else term.colors.alpha)
    let bg := if block_cursor && cursor_override term then
        color_hex_to_pixman term.cursor_color.cursor else bg
    let pix := fill_rect pix bg x y (1 * term.cell_width) term.cell_height
    if has_cursor then
      let cursor_color := if cursor_override term then
          color_hex_to_pixman term.cursor_color.cursor
        else
          color_hex_to_pixman ufg
      if term.cursor_style = CursorStyle.bar then
        draw_bar term pix cursor_color x y
      else if term.cursor_style = CursorStyle.underline then
        draw_underline term pix (attrs_to_font term cell.attrs) cursor_color x y 1
      else pix
    else pix

/-- An underline/strikeout band lies inside the cell's vertical extent. -/
def deco_band_fits (term : Term) (d : FontDeco) : Prop :=
  0 ≤ term.fextents.height - term.fextents.descent - d.position - d.thickness / 2 ∧
  term.fextents.height - term.fextents.descent - d.position - d.thickness / 2 +
    d.thickness ≤ term.cell_height

/-- A glyph occupies at most one column and its composite rectangle lies
inside the cell rectangle; alpha-mask coverages are 8-bit. -/
def glyph_fits (term : Term) (g : Glyph) : Prop :=
  g.cols ≤ 1 ∧ 0 ≤ g.x ∧ g.x + g.width ≤ term.cell_width ∧
  0 ≤ term.fextents.ascent - g.y ∧
  term.fextents.ascent - g.y + g.height ≤ term.cell_height ∧
  (match g.surf with
   | GlyphSurf.mask cov => ∀ a b, cov a b ≤ 255
   | GlyphSurf.image _ => True)

/-- Every rectangle render_cell may paint for this cell lies inside the
cell's own rectangle: positive cell dimensions, a fitting single-width
glyph (if any), and fitting underline/strikeout bands. -/
def cell_fits (term : Term) (cell : Cell) : Prop :=
  1 ≤ term.cell_width ∧ 1 ≤ term.cell_height ∧
  (match (attrs_to_font term cell.attrs).glyphs cell.wc with
   | none => True
   | some g => glyph_fits term g) ∧
  deco_band_fits term (attrs_to_font term cell.attrs).underline ∧
  deco_band_fits term (attrs_to_font term cell.attrs).strikeout

/-- Membership of pixel (i, j) in the rectangle of viewport cell (col, row). -/
def cell_rect_mem (term : Term) (col row : Nat) (i j : Int) : Prop :=
  (col : Int) * term.cell_width ≤ i ∧ i < ((col : Int) + 1) * term.cell_width ∧
  (row : Int) * term.cell_height ≤ j ∧ j < ((row : Int) + 1) * term.cell_height

/-- Embedding of grid_row_in_view: the row at ring index (view + r) mod
num_rows. -/
def grid_row_in_view (g : Grid) (r : Nat) : Row :=
  g.rows ((g.view + r) % g.num_rows)

/-- Write a cell back into the grid at in-view position (col, row). -/
def update_cell_in_grid (g : Grid) (col row : Nat) (cell : Cell) : Grid :=
  let idx := (g.view + row) % g.num_rows
  { g with rows := fun i =>
      if i = idx then
        { g.rows idx with cells := fun j => if j = col then cell else (g.rows idx).cells j }
      else g.rows i }

/-- Set the dirty flag of the in-view row r. -/
def set_row_dirty (g : Grid) (r : Nat) (d : Bool) : Grid :=
  let idx := (g.view + r) % g.num_rows
  { g with rows := fun i => if i = idx then { g.rows idx with dirty := d } else g.rows i }

/-- Run render_cell on the grid cell at in-view (col, row), optionally
clearing its clean bit first (as the erase-cursor and draw-cursor paths
do), and store the updated cell and blink flag back into the terminal. -/
def run_render_cell (t : Term) (pix : Pix) (col row : Nat)
    (clear_clean : Bool) (has_cursor : Bool) : Term × Pix :=
  let cell0 := (grid_row_in_view t.grid row).cells col
  let cell1 := if clear_clean then
      { cell0 with attrs := { cell0.attrs with clean := false } }
    else cell0
  let rc := render_cell t pix cell1 col row has_cursor
  ({ t with grid := update_cell_in_grid t.grid col row rc.cell
            blink := { t.blink with active := rc.blink_active } },
   rc.pix)

/-- The frame driver's running state: terminal, pixel surface, all_clean. -/
structure FrameSt where
  term : Term
  pix : Pix
  all_clean : Bool

/-- Result of one grid_render frame: final terminal and pixels, whether the
buffer stayed busy, and whether the surface was committed. -/
structure FrameOut where
  term : Term
  pix : Pix
  buf_busy : Bool
  committed : Bool

/-- Erase the previous cursor: if a cursor cell is remembered and still
clean, clear its clean bit and repaint it with has_cursor = false; forget
the remembered cell; if the cursor moved since last frame, the frame can
no longer be all-clean. -/
def phase_erase (s : FrameSt) : FrameSt :=
  match s.term.render.last_cursor_cell with
  | none => s
  | some cr =>
    let s1 :=
      if ((grid_row_in_view s.term.grid cr.2).cells cr.1).attrs.clean then
        let tp := run_render_cell s.term s.pix cr.1 cr.2 true false
        { s with term := tp.1, pix := tp.2 }
      else s
    let t2 := { s1.term with render := { s1.term.render with last_cursor_cell := none } }
    if s.term.render.last_cursor_actual ≠ s.term.cursor then
      { s1 with term := t2, all_clean := false }
    else
      { s1 with term := t2 }

/-- Modelled from the spec: term_damage_view (terminal.c, not under src)
forces a full viewport refresh — every in-view row becomes dirty and every
cell of those rows loses its clean bit. -/
def term_damage_view (t : Term) : Term :=
  { t with grid :=
      { t.grid with rows := fun i =>
          if ∃ r, r < t.rows ∧ (t.grid.view + r) % t.grid.num_rows = i then
            { cells := fun c =>
                let cell := (t.grid.rows i).cells c
                { cell with attrs := { cell.attrs with clean := false } }
              dirty := true }
          else t.grid.rows i } }

/-- If a flash is active, damage the whole view. -/
def phase_flash_damage (s : FrameSt) : FrameSt :=
  if s.term.flash_active then { s with term := term_damage_view s.term } else s

/-- If the buffer changed, a flash is active or one just ended: repaint the
margins outside the cell grid with the default background and force a full
grid refresh. -/
def phase_newbuf (bufId : Nat) (s : FrameSt) : FrameSt :=
  if s.term.render.last_buf ≠ bufId ∨ s.term.flash_active = true ∨
      s.term.render.was_flashing = true then
    let t := s.term
    let rmargin := (t.cols : Int) * t.cell_width
    let bmargin := (t.rows : Int) * t.cell_height
    let ubg := if !t.reverse then t.colors.bg else t.colors.fg
    let bg := color_hex_to_pixman_with_alpha ubg t.colors.alpha
    let pix := fill_rect s.pix bg rmargin 0 (t.width - rmargin) t.height
    let pix := fill_rect pix bg 0 bmargin t.width (t.height - bmargin)
    let t := term_damage_view t
    { s with
      term := { t with render :=
          { t.render with last_buf := bufId, was_flashing := t.flash_active } }
      pix := pix }
  else s

/-- Pixel-level semantics of grid_render_scroll: rows of the band
[start, stop) move up by lines rows (a memmove of whole scanlines). -/
def scroll_pix (ch : Int) (d : Damage) (p : Pix) : Pix :=
  let dst_y := (d.start : Int) * ch
  let src_y := ((d.start : Int) + (d.lines : Int)) * ch
  let height := ((d.stop : Int) - (d.start : Int) - (d.lines : Int)) * ch
  if 0 < height then
    fun i j => if dst_y ≤ j ∧ j < dst_y + height then p i (j + (src_y - dst_y)) else p i j
  else p

/-- Pixel-level semantics of grid_render_scroll_reverse: rows of the band
move down by lines rows. -/
def scroll_reverse_pix (ch : Int) (d : Damage) (p : Pix) : Pix :=
  let src_y := (d.start : Int) * ch
  let dst_y := ((d.start : Int) + (d.lines : Int)) * ch
  let height := ((d.stop : Int) - (d.start : Int) - (d.lines : Int)) * ch
  if 0 < height then
    fun i j => if dst_y ≤ j ∧ j < dst_y + height then p i (j + (src_y - dst_y)) else p i j
  else p

/-- Apply one scroll damage record to the pixel buffer. -/
def apply_damage (ch : Int) (d : Damage) (p : Pix) : Pix :=
  match d.kind with
  | DamageKind.scroll => scroll_pix ch d p
  | DamageKind.scroll_reverse => scroll_reverse_pix ch d p

/-- Drain the scroll damage log in FIFO order, applying each record. -/
def phase_scroll (s : FrameSt) : FrameSt :=
  { s with
    pix := s.term.grid.scroll_damage.foldl
      (fun p d => apply_damage s.term.cell_height d p) s.pix
    term := { s.term with grid := { s.term.grid with scroll_damage := [] } } }

/-- Embedding of render_row: render every cell of in-view row r, from the
last column down to column 0. -/
def render_row_model (t : Term) (pix : Pix) (r : Nat) : Term × Pix :=
  (List.range t.cols).reverse.foldl
    (fun tp c => run_render_cell tp.1 tp.2 c r false false) (t, pix)

/-- Dispatch dirty rows (the workers.count == 0 path of grid_render):
render each dirty in-view row, clear its dirty bit, and drop all_clean. -/
def phase_rows (s : FrameSt) : FrameSt :=
  (List.range s.term.rows).foldl
    (fun st r =>
      if (grid_row_in_view st.term.grid r).dirty then
        let tp := render_row_model st.term st.pix r
        { term := { tp.1 with grid := set_row_dirty tp.1.grid r false }
          pix := tp.2
          all_clean := false }
      else st)
    s

/-- If the blink timer is armed but no visible cell blinks, disarm it and
reset the phase to On. -/
def phase_blink (s : FrameSt) : FrameSt :=
  if s.term.blink.active ∧
      (∀ r < s.term.rows, ∀ c < s.term.cols,
        ((grid_row_in_view s.term.grid r).cells c).attrs.blink = false) then
    { s with term := { s.term with blink := { active := false, state := BlinkState.on } } }
  else s

/-- The cursor's absolute grid row (offset + cursor.row) mod num_rows. -/
def cursor_abs_row (t : Term) : Nat :=
  (t.grid.offset + t.cursor.row) % t.grid.num_rows

/-- The last ring index of the viewport (view + rows - 1) mod num_rows. -/
def view_end (t : Term) : Nat :=
  (t.grid.view + t.rows - 1) % t.grid.num_rows

/-- Embedding of the cursor visibility test of grid_render, wrap-aware. -/
def cursor_is_visible (t : Term) : Bool :=
  if t.grid.view ≤ view_end t then
    decide (t.grid.view ≤ cursor_abs_row t ∧ cursor_abs_row t ≤ view_end t)
  else
    decide (t.grid.view ≤ cursor_abs_row t ∨ cursor_abs_row t ≤ view_end t)

/-- The cursor's in-view position: its column, and its absolute row
re-aligned against the view. -/
def cursor_view_pos (t : Term) : Nat × Nat :=
  (t.cursor.col, (cursor_abs_row t + t.grid.num_rows - t.grid.view) % t.grid.num_rows)

/-- Draw the cursor: if visible and not hidden, remember the cursor cell,
clear its clean bit and repaint it with has_cursor = true. -/
def phase_cursor (s : FrameSt) : FrameSt :=
  if cursor_is_visible s.term && !s.term.hide_cursor then
    let var := (cursor_view_pos s.term).2
    let t1 := { s.term with render :=
        { s.term.render with
          last_cursor_actual := s.term.cursor
          last_cursor_in_view := (s.term.cursor.col, var)
          last_cursor_cell := some (s.term.cursor.col, var) } }
    let tp := run_render_cell t1 s.pix s.term.cursor.col var true true
    { s with term := tp.1, pix := tp.2 }
  else s

/-- The translucent yellow flash tint (alpha pre-multiplied). -/
def flash_tint : PColor := ⟨0x7fff, 0x7fff, 0, 0x7fff⟩

/-- Embedding of grid_render (render.c), sequential path
(render.workers.count == 0): erase the old cursor, apply flash/new-buffer
damage, drain scroll damage, repaint dirty rows, disarm the blink timer if
possible, draw the cursor, and either release the buffer without
committing (all clean) or tint for flash and commit. -/
def grid_render (t : Term) (bufId : Nat) (pix : Pix) : FrameOut :=
  let s : FrameSt := ⟨t, pix, t.grid.scroll_damage.isEmpty⟩
  let s := phase_erase s
  let s := phase_flash_damage s
  let s := phase_newbuf bufId s
  let s := phase_scroll s
  let s := phase_rows s
  let s := phase_blink s
  let s := phase_cursor s
  if s.all_clean then
    ⟨s.term, s.pix, false, false⟩
  else
    let pix := if s.term.flash_active then
        fill_over s.pix flash_tint 0 0 s.term.width s.term.height
      else s.pix
    ⟨s.term, pix, true, true⟩

/-- Modelled from the spec: shm_get_buffer (shm.c, not under src) acquires
a buffer from the pool and can fail when the pool is exhausted.
grid_render dereferences the returned buffer unconditionally (render.c has
no failure branch), so a failed acquisition yields no defined frame
result. -/
def grid_render_from_pool (acquired : Option Nat) (t : Term) (pix : Pix) :
    Option FrameOut :=
  match acquired with
  | none => none
  | some bufId => some (grid_render t bufId pix)

/-- An all-white pixel surface, used as a concrete initial buffer. -/
def pix_white : Pix := fun _ _ => ⟨0xffff, 0xffff, 0xffff, 0xffff⟩

/-- A font with no glyphs and unit-thickness decorations at the baseline. -/
def font0 : Font :=
  { glyphs := fun _ => none
    underline := ⟨1, 1⟩
    strikeout := ⟨1, 1⟩ }

/-- An empty, clean cell. -/
def clean_cell : Cell := { wc := 0, attrs := { clean := true } }

/-- A small concrete terminal used as the base of the witness states:
1×1 viewport over a 1-row ring, 1×1 pixel cells, no selection, no flash,
no blink, no remembered cursor. -/
def base_term : Term :=
  { grid := { rows := fun _ => { cells := fun _ => clean_cell, dirty := false }
              num_rows := 1, offset := 0, view := 0, scroll_damage := [] }
    rows := 1
    cols := 1
    cell_width := 1
    cell_height := 1
    width := 1
    height := 1
    colors := { fg := 0xffffff, bg := 0, alpha := 0xffff }
    cursor_color := { text := 0, cursor := 0 }
    cursor := ⟨0, 0⟩
    cursor_style := CursorStyle.block
    hide_cursor := false
    reverse := false
    selection := { start := ⟨-1, 0⟩, end' := ⟨-1, 0⟩ }
    blink := { active := false, state := BlinkState.on }
    flash_active := false
    fonts := fun _ => font0
    fextents := { height := 1, ascent := 1, descent := 0 }
    render := { last_cursor_cell := none, last_cursor_actual := ⟨0, 0⟩
                last_cursor_in_view := (0, 0), last_buf := 0, was_flashing := false } }

/-- Terminal for the C3 counterexample: a 4-row ring viewed from row 3,
with a single-row selection on grid row 0, columns 0..2. -/
def term_c3 : Term :=
  { base_term with
    grid := { base_term.grid with num_rows := 4, view := 3 }
    selection := { start := ⟨0, 0⟩, end' := ⟨2, 0⟩ } }

/-- Terminal with a half-set selection: start.col = -1 but end.col = 5. -/
def term_halfsel : Term :=
  { base_term with selection := { start := ⟨-1, 0⟩, end' := ⟨5, 2⟩ } }

/-- A full-coverage 1×1 alpha-mask glyph occupying one column. -/
def glyph_c8 : Glyph :=
  { surf := GlyphSurf.mask (fun _ _ => 255), x := 0, y := 1, width := 1,
    height := 1, cols := 1 }

/-- A font holding glyph_c8 for code point 1. -/
def font_c8 : Font :=
  { glyphs := fun w => if w = 1 then some glyph_c8 else none
    underline := ⟨1, 1⟩
    strikeout := ⟨1, 1⟩ }

/-- Terminal for the C8 counterexample: white background palette, blink
phase Off, glyph_c8 installed. -/
def term_c8 : Term :=
  { base_term with
    colors := { fg := 0, bg := 0xffffff, alpha := 0xffff }
    blink := { active := false, state := BlinkState.off }
    fonts := fun _ => font_c8 }

/-- A dim blinking cell showing code point 1. -/
def cell_c8 : Cell := { wc := 1, attrs := { blink := true, dim := true } }

/-- A non-dim blinking cell showing code point 1, for the C8 witness. -/
def cell_c8w : Cell := { wc := 1, attrs := { blink := true } }

/-- Terminal like term_c8 but with no glyphs at all. -/
def term_c8w : Term :=
  { base_term with
    colors := { fg := 0, bg := 0xffffff, alpha := 0xffff }
    blink := { active := false, state := BlinkState.off } }

/-- Terminal for the C2 counterexample: the cell at (0, 0) is clean when
the frame begins, but it is the remembered cursor cell, so grid_render
erases and repaints it. -/
def term_cx2 : Term :=
  { base_term with
    hide_cursor := true
    render := { base_term.render with last_cursor_cell := some (0, 0) } }

/-- Terminal for the C5 witness: a 2×1 viewport, the cursor moved from
(0, 0) (remembered) to row 1. -/
def term_c5w : Term :=
  { base_term with
    rows := 2
    height := 2
    grid := { base_term.grid with num_rows := 2 }
    cursor := ⟨0, 1⟩
    render := { base_term.render with
                last_cursor_cell := some (0, 0), last_cursor_actual := ⟨0, 0⟩ } }

/-- A sample row for the C6 witness. -/
def row_c6 : RowL := { cells := [{ wc := 7, attrs := { bold := true } }], dirty := true }

/-- A one-row old grid holding row_c6, for the C6 witness. -/
def old_grid_c6 : Nat → Option RowL := fun r => if r = 0 then some row_c6 else none

/-- The identity byte buffer used by the C4 counterexample and witness. -/
def cex_buf : Nat → Nat := fun i => i

/-- Invariant carried across the repaint phases of a frame, relative to a
starting terminal t0 and the viewport position (c, r) of a clean cell: the
geometry, cursor and flash fields are unchanged, the cell at (c, r) is
still clean, and every grid cell is either still its original value or a
repainted cell that fits inside its own rectangle. -/
def cells_ok (t0 : Term) (c r : Nat) (T : Term) : Prop :=
  T.cell_width = t0.cell_width ∧ T.cell_height = t0.cell_height ∧
  T.fonts = t0.fonts ∧ T.fextents = t0.fextents ∧
  T.rows = t0.rows ∧ T.cols = t0.cols ∧
  T.cursor = t0.cursor ∧ T.grid.offset = t0.grid.offset ∧
  T.grid.view = t0.grid.view ∧ T.grid.num_rows = t0.grid.num_rows ∧
  T.flash_active = t0.flash_active ∧
  ((grid_row_in_view T.grid r).cells c).attrs.clean = true ∧
  (∀ y x, (grid_row_in_view T.grid y).cells x =
      (grid_row_in_view t0.grid y).cells x ∨
    cell_fits t0 ((grid_row_in_view T.grid y).cells x))

/-- Terminal for the C2 witness: a 1×2 viewport whose first row is dirty
(one not-clean empty cell) while the second row holds a clean cell; the
cursor sits on the dirty row. -/
def term_c2w : Term :=
  { base_term with
    rows := 2
    height := 2
    grid := { base_term.grid with
      num_rows := 2
      rows := fun i =>
        if i = 0 then
          { cells := fun _ => { wc := 0, attrs := { clean := false } },
            dirty := true }
        else { cells := fun _ => clean_cell, dirty := false } } }

/-! Theorems. -/

/-- C1: in render_cell the foreground and background are swapped exactly
when an odd number of the three flags (block_cursor, cell.reverse,
selected) are true — resolved_colors, applied by render_cell with
block_cursor_flag and coord_is_selected, yields the swapped base pair iff
the count of true flags is odd — and block_cursor is true exactly when
has_cursor is passed and the cursor style is Block. -/
theorem render_cell_swap_parity (term : Term) (attrs : Attrs)
    (has_cursor selected : Bool) :
    (resolved_colors term attrs (block_cursor_flag term has_cursor) selected =
      if ((if block_cursor_flag term has_cursor then 1 else 0) +
          (if attrs.reverse then 1 else 0) +
          (if selected then 1 else 0)) % 2 = 1 then
        (base_bg term attrs, base_fg term attrs)
      else
        (base_fg term attrs, base_bg term attrs)) ∧
    (block_cursor_flag term has_cursor = true ↔
      has_cursor = true ∧ term.cursor_style = CursorStyle.block) := by
  constructor
  · simp only [resolved_colors]
    cases hbc : block_cursor_flag term has_cursor <;>
      cases hr : attrs.reverse <;> cases selected <;> simp
  · simp only [block_cursor_flag]
    cases has_cursor <;> simp

/-- C10: whenever either selection endpoint has col = -1 — not only when
both do — coord_is_selected returns false for every probed coordinate. -/
theorem coord_is_selected_inactive (term : Term) (col row : Int)
    (h : term.selection.start.col = -1 ∨ term.selection.end'.col = -1) :
    coord_is_selected term col row = false := by
  unfold coord_is_selected
  rw [if_pos h]

/-- Witness for C10 at a half-set selection (start unset, end set). -/
theorem coord_is_selected_inactive_witness :
    (term_halfsel.selection.start.col = -1 ∨
      term_halfsel.selection.end'.col = -1) ∧
    coord_is_selected term_halfsel 0 0 = false :=
  ⟨Or.inl rfl, coord_is_selected_inactive term_halfsel 0 0 (Or.inl rfl)⟩

/-- C3 counterexample: with a 4-row ring viewed from row 3 and a selection
on grid row 0, the probed viewport coordinate (1, 1) is not selected by
the code (probed row 4, no modular reduction), although the claim's rule —
with the probed row (row + view) mod num_rows = 0 — says it is. -/
theorem coord_is_selected_mod_cex :
    coord_is_selected term_c3 1 1 = false ∧
      claim_selected_mod term_c3 1 1 = true := by decide

/-- C3 amended: selection membership is decided on the grid row row + view
with no modular reduction; after normalizing start ≤ end lexicographically
by (row, col), a single-row selection contains exactly its row's columns
start.col..end.col, and a multi-row selection contains col ≥ start.col on
the first row, col ≤ end.col on the last row, and every intermediate row
entirely. -/
theorem coord_is_selected_eq_nomod (term : Term) (col row : Int) :
    coord_is_selected term col row = selected_nomod term col row := by
  unfold coord_is_selected selected_nomod
  by_cases h1 : term.selection.start.col = -1 ∨ term.selection.end'.col = -1
  · rw [if_pos h1, if_pos h1]
  · rw [if_neg h1, if_neg h1]
    by_cases h2 : term.selection.start.row > term.selection.end'.row ∨
        (term.selection.start.row = term.selection.end'.row ∧
          term.selection.start.col > term.selection.end'.col)
    · simp only [if_pos h2]
      have hle : term.selection.end'.row ≤ term.selection.start.row := by
        rcases h2 with h | ⟨h, _⟩
        · exact le_of_lt h
        · exact le_of_eq h.symm
      by_cases h3 : term.selection.end'.row = term.selection.start.row
      · simp only [if_pos h3]
      · simp only [if_neg h3]
        by_cases h4 : row + (term.grid.view : Int) = term.selection.end'.row
        · simp only [if_pos h4]
        · simp only [if_neg h4]
          by_cases h5 : row + (term.grid.view : Int) = term.selection.start.row
          · simp only [if_pos h5]
          · simp only [if_neg h5]
            rw [decide_eq_decide]
            omega
    · simp only [if_neg h2]
      have hle : term.selection.start.row ≤ term.selection.end'.row := by
        push_neg at h2
        exact h2.1
      by_cases h3 : term.selection.start.row = term.selection.end'.row
      · simp only [if_pos h3]
      · simp only [if_neg h3]
        by_cases h4 : row + (term.grid.view : Int) = term.selection.start.row
        · simp only [if_pos h4]
        · simp only [if_neg h4]
          by_cases h5 : row + (term.grid.view : Int) = term.selection.end'.row
          · simp only [if_pos h5]
          · simp only [if_neg h5]
            rw [decide_eq_decide]
            omega

/-- Helper: grid_render_scroll's byte semantics agrees pointwise with the
rows-moved-up description. -/
theorem scroll_bytes_as_move (ch stride s e k : Nat) (b : Nat → Nat) (i : Nat) :
    grid_render_scroll_bytes ch stride s e k b i =
      rows_moved_up ch stride s e k b i := by
  unfold grid_render_scroll_bytes rows_moved_up memmove
  by_cases hpos : (0 : Int) < ((e : Int) - (s : Int) - (k : Int)) * (ch : Int)
  · rw [if_pos hpos]
    have hch : 0 < ch := by
      rcases Nat.eq_zero_or_pos ch with h0 | h
      · rw [h0] at hpos
        simp at hpos
      · exact h
    have hesk : s + k < e := by
      by_contra hc
      push_neg at hc
      have : ((e : Int) - (s : Int) - (k : Int)) ≤ 0 := by
        have := hc
        omega
      nlinarith
    have htn : ((((e : Int) - (s : Int) - (k : Int)) * (ch : Int))).toNat =
        (e - s - k) * ch := by
      have h1 : ((e : Int) - (s : Int) - (k : Int)) = ((e - s - k : Nat) : Int) := by
        omega
      rw [h1, ← Nat.cast_mul]
      exact Int.toNat_natCast _
    rw [htn]
    have hsum : (s + 0) * ch * stride + (e - s - k) * ch * stride =
        (e - k) * ch * stride := by
      rw [← Nat.add_mul, ← Nat.add_mul]
      have : s + 0 + (e - s - k) = e - k := by omega
      rw [this]
    by_cases hi : (s + 0) * ch * stride ≤ i ∧ i < (e - k) * ch * stride
    · rw [if_pos ⟨hi.1, by rw [hsum]; exact hi.2⟩,
        if_pos ⟨hesk, by simpa using hi.1, hi.2⟩]
      congr 1
      have hsk : (s + k) * ch * stride = (s + 0) * ch * stride + k * ch * stride := by
        ring
      rw [hsk]
      have h1 := hi.1
      generalize (s + 0) * ch * stride = A at *
      generalize k * ch * stride = K at *
      omega
    · rw [if_neg fun hc => hi ⟨hc.1, by rw [← hsum]; exact hc.2⟩,
        if_neg fun hc => hi ⟨by simpa using hc.2.1, hc.2.2⟩]
  · rw [if_neg hpos]
    rw [if_neg]
    rintro ⟨h1, _, h3⟩
    rcases Nat.eq_zero_or_pos ch with h0 | h
    · rw [h0] at h3
      simp at h3
    · apply hpos
      have he : (0 : Int) < (e : Int) - (s : Int) - (k : Int) := by omega
      have hc : (0 : Int) < (ch : Int) := by exact_mod_cast h
      exact mul_pos he hc

/-- Helper: value of rows_moved_up inside the moved band. -/
theorem rows_moved_up_pos (ch stride s e k : Nat) (b : Nat → Nat) (i : Nat)
    (h : s + k < e ∧ s * ch * stride ≤ i ∧ i < (e - k) * ch * stride) :
    rows_moved_up ch stride s e k b i = b (i + k * ch * stride) := by
  unfold rows_moved_up
  rw [if_pos h]

/-- Helper: value of rows_moved_up outside the moved band. -/
theorem rows_moved_up_neg (ch stride s e k : Nat) (b : Nat → Nat) (i : Nat)
    (h : ¬ (s + k < e ∧ s * ch * stride ≤ i ∧ i < (e - k) * ch * stride)) :
    rows_moved_up ch stride s e k b i = b i := by
  unfold rows_moved_up
  rw [if_neg h]

/-- C4 (amended): applying a Scroll{[s,e), k} damage record to the pixel
buffer equals a memmove of (e − s − k) rows of pixels upward by k rows;
and applying Scroll{[s,e), 1} twice agrees with applying Scroll{[s,e), 2}
once at every byte outside the pixel band of grid row e − 2 (on that band
the twice-scrolled buffer holds a second copy of row e − 1 while the
once-scrolled buffer keeps its old contents). -/
theorem grid_render_scroll_spec (ch stride s e k : Nat) (b : Nat → Nat) :
    (∀ i, grid_render_scroll_bytes ch stride s e k b i =
      rows_moved_up ch stride s e k b i) ∧
    (∀ i, i < (e - 2) * ch * stride ∨ (e - 1) * ch * stride ≤ i →
      grid_render_scroll_bytes ch stride s e 1
          (grid_render_scroll_bytes ch stride s e 1 b) i =
        grid_render_scroll_bytes ch stride s e 2 b i) := by
  constructor
  · exact fun i => scroll_bytes_as_move ch stride s e k b i
  · intro i hi
    rw [scroll_bytes_as_move ch stride s e 1
        (grid_render_scroll_bytes ch stride s e 1 b) i,
      scroll_bytes_as_move ch stride s e 2 b i]
    have hinner : ∀ j, grid_render_scroll_bytes ch stride s e 1 b j =
        rows_moved_up ch stride s e 1 b j :=
      fun j => scroll_bytes_as_move ch stride s e 1 b j
    have f3 : (e - 2) * ch * stride ≤ (e - 1) * ch * stride :=
      Nat.mul_le_mul_right stride (Nat.mul_le_mul_right ch (by omega))
    by_cases c2 : s + 2 < e
    · have hm1 : e - 2 + 1 = e - 1 := by omega
      have f1 : (e - 2) * ch * stride + ch * stride = (e - 1) * ch * stride := by
        rw [← hm1, Nat.succ_mul, Nat.add_mul]
      rcases hi with hlt | hge
      · by_cases hs : s * ch * stride ≤ i
        · have hlt1 : i < (e - 1) * ch * stride := lt_of_lt_of_le hlt f3
          rw [rows_moved_up_pos ch stride s e 1 _ i ⟨by omega, hs, hlt1⟩]
          rw [hinner]
          have hs2 : s * ch * stride ≤ i + 1 * ch * stride :=
            le_trans hs (Nat.le_add_right _ _)
          have hlt2 : i + 1 * ch * stride < (e - 1) * ch * stride := by
            rw [one_mul]
            exact lt_of_lt_of_le (Nat.add_lt_add_right hlt _) (le_of_eq f1)
          rw [rows_moved_up_pos ch stride s e 1 b _ ⟨by omega, hs2, hlt2⟩]
          rw [rows_moved_up_pos ch stride s e 2 b i ⟨c2, hs, hlt⟩]
          congr 1
          ring
        · push_neg at hs
          rw [rows_moved_up_neg ch stride s e 1 _ i
            (fun hc => absurd hc.2.1 (by omega))]
          rw [hinner]
          rw [rows_moved_up_neg ch stride s e 1 b i
            (fun hc => absurd hc.2.1 (by omega))]
          rw [rows_moved_up_neg ch stride s e 2 b i
            (fun hc => absurd hc.2.1 (by omega))]
      · have hn1 : ¬ (i < (e - 1) * ch * stride) := by omega
        have hn2 : ¬ (i < (e - 2) * ch * stride) := by omega
        rw [rows_moved_up_neg ch stride s e 1 _ i
          (fun hc => absurd hc.2.2 hn1)]
        rw [hinner]
        rw [rows_moved_up_neg ch stride s e 1 b i
          (fun hc => absurd hc.2.2 hn1)]
        rw [rows_moved_up_neg ch stride s e 2 b i
          (fun hc => absurd hc.2.2 hn2)]
    · have hr : ¬ (s + 2 < e ∧ s * ch * stride ≤ i ∧
          i < (e - 2) * ch * stride) := fun hc => absurd hc.1 c2
      rw [rows_moved_up_neg ch stride s e 2 b i hr]
      by_cases c1 : s + 1 < e
      · have h1 : e - 1 = s + 1 := by omega
        have h2 : e - 2 = s := by omega
        rcases hi with hlt | hge
        · rw [h2] at hlt
          have hn : ¬ (s * ch * stride ≤ i) := by omega
          rw [rows_moved_up_neg ch stride s e 1 _ i
            (fun hc => absurd hc.2.1 hn)]
          rw [hinner]
          rw [rows_moved_up_neg ch stride s e 1 b i
            (fun hc => absurd hc.2.1 hn)]
        · rw [h1] at hge
          have hn : ¬ (i < (e - 1) * ch * stride) := by rw [h1]; omega
          rw [rows_moved_up_neg ch stride s e 1 _ i
            (fun hc => absurd hc.2.2 hn)]
          rw [hinner]
          rw [rows_moved_up_neg ch stride s e 1 b i
            (fun hc => absurd hc.2.2 hn)]
      · rw [rows_moved_up_neg ch stride s e 1 _ i
          (fun hc => absurd hc.1 c1)]
        rw [hinner]
        rw [rows_moved_up_neg ch stride s e 1 b i
          (fun hc => absurd hc.1 c1)]

/-- C4 counterexample: with cell_height = stride = 1 and region [0, 3),
applying Scroll by 1 twice and applying Scroll by 2 once give different
buffer contents at byte 1 (row 1). -/
theorem grid_render_scroll_twice_cex :
    grid_render_scroll_bytes 1 1 0 3 1
        (grid_render_scroll_bytes 1 1 0 3 1 cex_buf) 1 ≠
      grid_render_scroll_bytes 1 1 0 3 2 cex_buf 1 := by decide

/-- Witness for the C4 theorem: its per-byte hypothesis is satisfiable and
the conclusion holds at byte 5 of the same concrete configuration. -/
theorem grid_render_scroll_spec_witness :
    ((5 : Nat) < (3 - 2) * 1 * 1 ∨ (3 - 1) * 1 * 1 ≤ 5) ∧
    grid_render_scroll_bytes 1 1 0 3 1
        (grid_render_scroll_bytes 1 1 0 3 1 cex_buf) 5 =
      grid_render_scroll_bytes 1 1 0 3 2 cex_buf 5 :=
  ⟨by decide, (grid_render_scroll_spec 1 1 0 3 1 cex_buf).2 5 (by decide)⟩

/-- Helper: the shape of a reflowed row — same dirty bit, new_cols cells,
the first min(new_cols, old_cols) copied and the tail zero-filled. -/
theorem reflow_row_shape (new_cols old_cols : Nat) (orow : RowL)
    (hlen : orow.cells.length = old_cols) :
    (reflow_row new_cols old_cols orow).dirty = orow.dirty ∧
    (reflow_row new_cols old_cols orow).cells.length = new_cols ∧
    ∀ c, c < new_cols →
      (reflow_row new_cols old_cols orow).cells[c]? =
        if c < min new_cols old_cols then orow.cells[c]? else some zero_cell := by
  refine ⟨rfl, ?_, ?_⟩
  · simp only [reflow_row, List.length_append, List.length_take,
      List.length_replicate, hlen]
    omega
  · intro c hc
    unfold reflow_row
    by_cases hcm : c < min new_cols old_cols
    · rw [if_pos hcm]
      have hclen : c < (orow.cells.take (min new_cols old_cols)).length := by
        simp only [List.length_take, hlen]
        omega
      rw [List.getElem?_append_left hclen]
      rw [List.getElem?_take_of_lt hcm]
    · rw [if_neg hcm]
      push_neg at hcm
      have hclen : (orow.cells.take (min new_cols old_cols)).length ≤ c := by
        simp only [List.length_take, hlen]
        omega
      rw [List.getElem?_append_right hclen]
      rw [List.getElem?_replicate_of_lt]
      simp only [List.length_take, hlen]
      omega

/-- C6: reflow copies, for each row index r below min(new_rows, old_rows)
present in the old grid, min(new_cols, old_cols) cells into the new row at
the same index and zero-fills the remaining columns; consequently, when
new_cols ≥ old_cols and new_rows ≥ old_rows, every cell present in the old
grid keeps its (wc, attrs) at the same (r, c) in the new grid. -/
theorem reflow_preserves_content (new_grid : Nat → Option RowL)
    (new_cols new_rows old_cols old_rows : Nat)
    (old_grid : Nat → Option RowL) :
    (∀ r orow, r < min new_rows old_rows → old_grid r = some orow →
      orow.cells.length = old_cols →
      ∃ nrow, reflow new_grid new_cols new_rows old_grid old_cols old_rows r =
          some nrow ∧
        nrow.dirty = orow.dirty ∧ nrow.cells.length = new_cols ∧
        ∀ c, c < new_cols →
          nrow.cells[c]? =
            if c < min new_cols old_cols then orow.cells[c]? else some zero_cell) ∧
    (∀ r orow c, old_cols ≤ new_cols → old_rows ≤ new_rows →
      r < old_rows → old_grid r = some orow → orow.cells.length = old_cols →
      c < old_cols →
      ∃ nrow, reflow new_grid new_cols new_rows old_grid old_cols old_rows r =
          some nrow ∧
        nrow.cells[c]? = orow.cells[c]?) := by
  have hshape : ∀ r orow, r < min new_rows old_rows → old_grid r = some orow →
      orow.cells.length = old_cols →
      ∃ nrow, reflow new_grid new_cols new_rows old_grid old_cols old_rows r =
          some nrow ∧
        nrow.dirty = orow.dirty ∧ nrow.cells.length = new_cols ∧
        ∀ c, c < new_cols →
          nrow.cells[c]? =
            if c < min new_cols old_cols then orow.cells[c]? else some zero_cell := by
    intro r orow hr hsome hlen
    refine ⟨reflow_row new_cols old_cols orow, ?_, reflow_row_shape _ _ _ hlen⟩
    unfold reflow
    rw [if_pos hr, hsome]
  refine ⟨hshape, ?_⟩
  intro r orow c hcols hrows hr hsome hlen hc
  have hrm : r < min new_rows old_rows := by omega
  obtain ⟨nrow, heq, _, hlennew, hcell⟩ := hshape r orow hrm hsome hlen
  refine ⟨nrow, heq, ?_⟩
  have hcnew : c < new_cols := by omega
  rw [hcell c hcnew, if_pos (by omega)]

/-- Helper: OVER-compositing a solid color onto itself through any 8-bit
coverage leaves the pixel unchanged. -/
theorem over_mask_self (s : PColor) (m : Nat) (hm : m ≤ 255) :
    over_mask s m s = s := by
  obtain ⟨r, g, bl, a⟩ := s
  simp only [over_mask]
  have key : ∀ v : Nat, (v * m + v * (255 - m)) / 255 = v := by
    intro v
    have h1 : v * m + v * (255 - m) = v * 255 := by
      rw [← Nat.mul_add]
      congr 1
      omega
    rw [h1, Nat.mul_div_cancel _ (by norm_num)]
  rw [key, key, key, key]

/-- Helper: filling a rectangle with the color it already holds is a
no-op. -/
theorem fill_rect_no_op (p : Pix) (c : PColor) (x y w h : Int)
    (hp : ∀ i j, x ≤ i → i < x + w → y ≤ j → j < y + h → p i j = c) :
    fill_rect p c x y w h = p := by
  funext i j
  unfold fill_rect
  split
  case isTrue hin => exact (hp i j hin.1 hin.2.1 hin.2.2.1 hin.2.2.2).symm
  case isFalse => rfl

/-- Helper: OVER-compositing a solid color through a bounded mask onto a
region that already holds that color is a no-op. -/
theorem composite_mask_no_op (p : Pix) (s : PColor) (cov : Int → Int → Nat)
    (dx dy w h : Int)
    (hcov : ∀ a b, cov a b ≤ 255)
    (hp : ∀ i j, dx ≤ i → i < dx + w → dy ≤ j → j < dy + h → p i j = s) :
    composite_mask p s cov dx dy w h = p := by
  funext i j
  unfold composite_mask
  split
  case isTrue hin =>
    rw [hp i j hin.1 hin.2.1 hin.2.2.1 hin.2.2.2]
    exact over_mask_self s _ (hcov _ _)
  case isFalse => rfl

/-- Helper: value of fill_rect inside the filled rectangle. -/
theorem fill_rect_value (p : Pix) (c : PColor) (x y w h i j : Int)
    (hin : x ≤ i ∧ i < x + w ∧ y ≤ j ∧ j < y + h) :
    fill_rect p c x y w h i j = c := by
  unfold fill_rect
  rw [if_pos hin]

/-- C8 counterexample: a dim blinking cell rendered at blink phase Off is
not pixel-identical to its background-only rendering — the glyph is
composited with the dimmed (halved) background color and stays visible. -/
theorem render_blink_off_cex :
    (render_cell term_c8 pix_white cell_c8 0 0 false).pix 0 0 ≠
      background_only_render term_c8 pix_white cell_c8 0 0 false 0 0 := by
  decide

/-- Witness for C6: growing a 1×1 grid to 2×2 keeps the single old cell at
(0, 0). -/
theorem reflow_preserves_content_witness :
    old_grid_c6 0 = some row_c6 ∧
    (∃ nrow, reflow (fun _ => none) 2 2 old_grid_c6 1 1 0 = some nrow ∧
      nrow.cells[0]? = row_c6.cells[0]?) :=
  ⟨by decide,
    (reflow_preserves_content (fun _ => none) 2 2 1 1 old_grid_c6).2
      0 row_c6 0 (by decide) (by decide) (by decide) (by decide) (by decide)
      (by decide)⟩


/-- Helper: drawing an underline in the color the band already holds is a
no-op. -/
theorem draw_underline_no_op_t (term : Term) (p : Pix) (font : Font) (c : PColor)
    (x y : Int) (hband : deco_band_fits term font.underline)
    (hp : ∀ i j, x ≤ i → i < x + 1 * term.cell_width → y ≤ j →
      j < y + term.cell_height → p i j = c) :
    draw_underline term p font c x y 1 = p := by
  unfold draw_underline
  apply fill_rect_no_op
  intro i j h1 h2 h3 h4
  obtain ⟨hb1, hb2⟩ := hband
  apply hp i j h1 h2 (by linarith) (by linarith)

/-- Helper: drawing a strikeout in the color the band already holds is a
no-op. -/
theorem draw_strikeout_no_op_t (term : Term) (p : Pix) (font : Font) (c : PColor)
    (x y : Int) (hband : deco_band_fits term font.strikeout)
    (hp : ∀ i j, x ≤ i → i < x + 1 * term.cell_width → y ≤ j →
      j < y + term.cell_height → p i j = c) :
    draw_strikeout term p font c x y 1 = p := by
  unfold draw_strikeout
  apply fill_rect_no_op
  intro i j h1 h2 h3 h4
  obtain ⟨hb1, hb2⟩ := hband
  apply hp i j h1 h2 (by linarith) (by linarith)

/-- C8 (amended): for a blinking, non-dim cell rendered without a cursor
while the blink phase is Off, when the background alpha is opaque and the
cell fits (single-width glyph and decorations inside the cell rectangle),
the rendered pixel region is identical to the background-only rendering of
the same cell (no glyph): a pre-rendered image glyph's composite is
skipped outright at blink-off, and for an alpha-mask glyph the foreground
is set equal to the background, so the glyph, underline and strikethrough
paint the background color over itself. Dimming breaks the equality (the
counterexample): fg := bg is halved afterwards, so the mask glyph stays
visible. -/
theorem render_cell_blink_off_bg_only (term : Term) (pix : Pix) (cell : Cell)
    (col row : Nat)
    (hblink : cell.attrs.blink = true)
    (hoff : term.blink.state = BlinkState.off)
    (hdim : cell.attrs.dim = false)
    (halpha : term.colors.alpha = 0xffff)
    (hfits : cell_fits term cell) :
    (render_cell term pix cell col row false).pix =
      background_only_render term pix cell col row false := by
  by_cases hclean : cell.attrs.clean
  · unfold render_cell background_only_render
    rw [if_pos hclean, if_pos hclean]
  · obtain ⟨hcw, hch, hglyph, hund, hstr⟩ := hfits
    unfold render_cell background_only_render
    rw [if_neg hclean, if_neg hclean]
    have hfont : attrs_to_font term { cell.attrs with clean := true } =
        attrs_to_font term cell.attrs := rfl
    have hres : ∀ f s, resolved_colors term { cell.attrs with clean := true } f s =
        resolved_colors term cell.attrs f s := fun _ _ => rfl
    dsimp only
    simp only [hfont, hres]
    simp only [hblink, hoff, hdim, halpha, blink_off, block_cursor_flag,
      Bool.false_and, Bool.and_false, Bool.true_and, Bool.and_true, if_false,
      if_true, Bool.not_true, Bool.false_eq_true, Bool.true_eq_false,
      decide_True, decide_eq_true_eq]
    set X := (col : Int) * term.cell_width with hX
    set Y := (row : Int) * term.cell_height with hY
    set SEL := coord_is_selected term (col : Int) (row : Int) with hSEL
    set B2 := (resolved_colors term cell.attrs false SEL).2 with hB2
    set BG := color_hex_to_pixman_with_alpha B2 65535 with hBG
    have hFGBG : color_hex_to_pixman B2 = BG := rfl
    have hFval : ∀ i j : Int, X ≤ i → i < X + 1 * term.cell_width → Y ≤ j →
        j < Y + term.cell_height →
        fill_rect pix BG X Y (1 * term.cell_width) term.cell_height i j = BG := by
      intro i j h1 h2 h3 h4
      exact fill_rect_value pix BG X Y (1 * term.cell_width) term.cell_height i j
        ⟨h1, h2, h3, h4⟩
    cases hg : (attrs_to_font term cell.attrs).glyphs cell.wc with
    | none =>
      simp only [hg]
      by_cases hwc : (decide (cell.wc = 0) || cell.attrs.conceal) = true
      · rw [if_pos hwc]
      · rw [if_neg hwc]
        dsimp only
        rw [hFGBG, draw_underline_no_op_t term _ _ _ _ _ hund hFval, ite_self,
          draw_strikeout_no_op_t term _ _ _ _ _ hstr hFval, ite_self]
    | some g =>
      rw [hg] at hglyph
      dsimp only at hglyph
      obtain ⟨hcols_le, hx0, hxw, hy0, hyh, hsurfb⟩ := hglyph
      have hcols : (1 : Int) ⊔ g.cols = 1 := sup_eq_left.mpr hcols_le
      simp only [hg, hcols]
      by_cases hwc : (decide (cell.wc = 0) || cell.attrs.conceal) = true
      · rw [if_pos hwc]
      · rw [if_neg hwc]
        dsimp only
        cases hsf : g.surf with
        | image img =>
          simp only [hsf]
          rw [hFGBG, draw_underline_no_op_t term _ _ _ _ _ hund hFval, ite_self,
            draw_strikeout_no_op_t term _ _ _ _ _ hstr hFval, ite_self]
        | mask cov =>
          rw [hsf] at hsurfb
          dsimp only at hsurfb
          simp only [hsf]
          have hmask : composite_mask
              (fill_rect pix BG X Y (1 * term.cell_width) term.cell_height)
              BG cov (X + g.x) (Y + term.fextents.ascent - g.y)
              g.width g.height =
              fill_rect pix BG X Y (1 * term.cell_width) term.cell_height := by
            apply composite_mask_no_op _ _ _ _ _ _ _ hsurfb
            intro i j h1 h2 h3 h4
            apply hFval i j (by linarith) (by linarith) (by linarith) (by linarith)
          rw [hFGBG, hmask, draw_underline_no_op_t term _ _ _ _ _ hund hFval,
            ite_self, draw_strikeout_no_op_t term _ _ _ _ _ hstr hFval, ite_self]

/-- Witness for C8: a concrete blinking cell at blink phase Off renders
identically to its background-only rendering. -/
theorem render_cell_blink_off_bg_only_witness :
    cell_c8w.attrs.blink = true ∧
    (render_cell term_c8w pix_white cell_c8w 0 0 false).pix =
      background_only_render term_c8w pix_white cell_c8w 0 0 false :=
  ⟨by decide, render_cell_blink_off_bg_only term_c8w pix_white cell_c8w 0 0
    (by decide) (by decide) (by decide) (by decide)
    ⟨by decide, by decide, trivial, ⟨by decide, by decide⟩, ⟨by decide, by decide⟩⟩⟩

/-- Helper: updating one cell leaves every row's dirty flag unchanged. -/
theorem update_cell_dirty (g : Grid) (c r : Nat) (cell : Cell) (i : Nat) :
    ((update_cell_in_grid g c r cell).rows i).dirty = (g.rows i).dirty := by
  unfold update_cell_in_grid
  dsimp only
  split
  case isTrue h => rw [h]
  case isFalse h => rfl

/-- Helper: the cursor-erase phase changes no frame-relevant terminal
component other than the erased cell and the remembered cursor. -/
theorem phase_erase_pres (s : FrameSt) :
    (phase_erase s).term.flash_active = s.term.flash_active ∧
    (phase_erase s).term.render.was_flashing = s.term.render.was_flashing ∧
    (phase_erase s).term.render.last_buf = s.term.render.last_buf ∧
    (phase_erase s).term.grid.scroll_damage = s.term.grid.scroll_damage ∧
    (phase_erase s).term.rows = s.term.rows ∧
    (phase_erase s).term.cols = s.term.cols ∧
    (phase_erase s).term.grid.view = s.term.grid.view ∧
    (phase_erase s).term.grid.num_rows = s.term.grid.num_rows ∧
    (∀ i, ((phase_erase s).term.grid.rows i).dirty = (s.term.grid.rows i).dirty) := by
  unfold phase_erase run_render_cell
  cases hc : s.term.render.last_cursor_cell with
  | none => exact ⟨rfl, rfl, rfl, rfl, rfl, rfl, rfl, rfl, fun i => rfl⟩
  | some cr =>
    dsimp only
    split <;> split <;>
      exact ⟨rfl, rfl, rfl, rfl, rfl, rfl, rfl, rfl,
        fun i => by first | rfl | exact update_cell_dirty _ _ _ _ i⟩

/-- Helper: when the cursor did not move, the erase phase preserves
all_clean. -/
theorem phase_erase_all_clean (s : FrameSt)
    (h : s.term.render.last_cursor_actual = s.term.cursor) :
    (phase_erase s).all_clean = s.all_clean := by
  unfold phase_erase
  cases hc : s.term.render.last_cursor_cell with
  | none => rfl
  | some cr =>
    dsimp only
    rw [if_neg (fun hne => hne h)]
    split <;> rfl

/-- Helper: with no active flash, the flash-damage phase is the identity. -/
theorem phase_flash_damage_id (s : FrameSt) (h : s.term.flash_active = false) :
    phase_flash_damage s = s := by
  unfold phase_flash_damage
  rw [if_neg (by simp [h])]

/-- Helper: with an unchanged buffer, no flash and no just-ended flash, the
new-buffer phase is the identity. -/
theorem phase_newbuf_id (bufId : Nat) (s : FrameSt)
    (h1 : s.term.render.last_buf = bufId)
    (h2 : s.term.flash_active = false)
    (h3 : s.term.render.was_flashing = false) :
    phase_newbuf bufId s = s := by
  unfold phase_newbuf
  rw [if_neg]
  rintro (h | h | h)
  · exact h h1
  · rw [h2] at h
    exact Bool.false_ne_true h
  · rw [h3] at h
    exact Bool.false_ne_true h

/-- Helper: with an empty scroll-damage log, the scroll phase is the
identity. -/
theorem phase_scroll_id (s : FrameSt) (h : s.term.grid.scroll_damage = []) :
    phase_scroll s = s := by
  unfold phase_scroll
  rw [h]
  have h2 : { s.term.grid with scroll_damage := ([] : List Damage) } =
      s.term.grid := by rw [← h]
  simp only [List.foldl_nil, h2]

/-- Helper: with no dirty in-view row, the row-dispatch phase is the
identity. -/
theorem phase_rows_id (s : FrameSt)
    (h : ∀ r, r < s.term.rows → (grid_row_in_view s.term.grid r).dirty = false) :
    phase_rows s = s := by
  unfold phase_rows
  have key : ∀ l : List Nat,
      (∀ r ∈ l, (grid_row_in_view s.term.grid r).dirty = false) →
      l.foldl (fun st r =>
        if (grid_row_in_view st.term.grid r).dirty then
          { term := { (render_row_model st.term st.pix r).1 with
              grid := set_row_dirty (render_row_model st.term st.pix r).1.grid r false }
            pix := (render_row_model st.term st.pix r).2
            all_clean := false }
        else st) s = s := by
    intro l
    induction l with
    | nil => intro _; rfl
    | cons a l ih =>
      intro hl
      rw [List.foldl_cons]
      have ha : (grid_row_in_view s.term.grid a).dirty = false :=
        hl a (List.mem_cons_self a l)
      rw [if_neg (by simp [ha])]
      exact ih (fun r hr => hl r (List.mem_cons_of_mem a hr))
  exact key (List.range s.term.rows)
    (fun r hr => h r (List.mem_range.mp hr))

/-- Helper: the blink-disarm phase changes neither all_clean nor the pixel
surface. -/
theorem phase_blink_pres (s : FrameSt) :
    (phase_blink s).all_clean = s.all_clean ∧ (phase_blink s).pix = s.pix := by
  unfold phase_blink
  split <;> exact ⟨rfl, rfl⟩

/-- Helper: the cursor-draw phase does not change all_clean. -/
theorem phase_cursor_all_clean (s : FrameSt) :
    (phase_cursor s).all_clean = s.all_clean := by
  unfold phase_cursor
  split <;> rfl

/-- C7: on a frame whose grid is entirely clean (no dirty rows), whose
scroll-damage log is empty, and whose cursor has not moved since the last
frame — with no flash in progress or just ended and an unchanged buffer —
grid_render returns without committing and releases the buffer (busy
cleared). -/
theorem grid_render_clean_release (t : Term) (bufId : Nat) (pix : Pix)
    (hscroll : t.grid.scroll_damage = [])
    (hdirty : ∀ r, r < t.rows → (grid_row_in_view t.grid r).dirty = false)
    (hflash : t.flash_active = false)
    (hwas : t.render.was_flashing = false)
    (hbuf : t.render.last_buf = bufId)
    (hcur : t.render.last_cursor_actual = t.cursor) :
    (grid_render t bufId pix).committed = false ∧
      (grid_render t bufId pix).buf_busy = false := by
  unfold grid_render
  dsimp only
  obtain ⟨pf, pw, pb, ps, pr, pc, pv, pn, pd⟩ :=
    phase_erase_pres ⟨t, pix, t.grid.scroll_damage.isEmpty⟩
  have e1 : phase_flash_damage (phase_erase ⟨t, pix, t.grid.scroll_damage.isEmpty⟩) =
      phase_erase ⟨t, pix, t.grid.scroll_damage.isEmpty⟩ :=
    phase_flash_damage_id _ (pf.trans hflash)
  rw [e1]
  have e2 : phase_newbuf bufId (phase_erase ⟨t, pix, t.grid.scroll_damage.isEmpty⟩) =
      phase_erase ⟨t, pix, t.grid.scroll_damage.isEmpty⟩ :=
    phase_newbuf_id bufId _ (pb.trans hbuf) (pf.trans hflash) (pw.trans hwas)
  rw [e2]
  have e3 : phase_scroll (phase_erase ⟨t, pix, t.grid.scroll_damage.isEmpty⟩) =
      phase_erase ⟨t, pix, t.grid.scroll_damage.isEmpty⟩ :=
    phase_scroll_id _ (ps.trans hscroll)
  rw [e3]
  have e4 : phase_rows (phase_erase ⟨t, pix, t.grid.scroll_damage.isEmpty⟩) =
      phase_erase ⟨t, pix, t.grid.scroll_damage.isEmpty⟩ := by
    apply phase_rows_id
    intro r hr
    unfold grid_row_in_view
    rw [pv, pn, pd]
    exact hdirty r (by rw [← pr]; exact hr)
  rw [e4]
  have a1 : (phase_erase ⟨t, pix, t.grid.scroll_damage.isEmpty⟩).all_clean = true := by
    rw [phase_erase_all_clean _ hcur]
    show t.grid.scroll_damage.isEmpty = true
    rw [hscroll]
    rfl
  have a2 : (phase_blink (phase_erase ⟨t, pix, t.grid.scroll_damage.isEmpty⟩)).all_clean =
      true := (phase_blink_pres _).1.trans a1
  have a3 : (phase_cursor (phase_blink
      (phase_erase ⟨t, pix, t.grid.scroll_damage.isEmpty⟩))).all_clean = true :=
    (phase_cursor_all_clean _).trans a2
  rw [if_pos a3]
  exact ⟨rfl, rfl⟩


/-- Helper: a fill over a sub-rectangle of a cell does not change points
outside the cell rectangle. -/
theorem fill_rect_sub_outside (term : Term) (col row : Nat) (P : Pix) (c : PColor)
    (x0 y0 w0 h0 i j : Int)
    (hx : (col : Int) * term.cell_width ≤ x0)
    (hw : x0 + w0 ≤ ((col : Int) + 1) * term.cell_width)
    (hy : (row : Int) * term.cell_height ≤ y0)
    (hh : y0 + h0 ≤ ((row : Int) + 1) * term.cell_height)
    (hout : ¬ cell_rect_mem term col row i j) :
    fill_rect P c x0 y0 w0 h0 i j = P i j := by
  unfold fill_rect
  rw [if_neg]
  rintro ⟨h1, h2, h3, h4⟩
  exact hout ⟨by linarith, by linarith, by linarith, by linarith⟩

/-- Helper: a mask composite over a sub-rectangle of a cell does not
change points outside the cell rectangle. -/
theorem composite_mask_sub_outside (term : Term) (col row : Nat) (P : Pix)
    (s : PColor) (cov : Int → Int → Nat) (x0 y0 w0 h0 i j : Int)
    (hx : (col : Int) * term.cell_width ≤ x0)
    (hw : x0 + w0 ≤ ((col : Int) + 1) * term.cell_width)
    (hy : (row : Int) * term.cell_height ≤ y0)
    (hh : y0 + h0 ≤ ((row : Int) + 1) * term.cell_height)
    (hout : ¬ cell_rect_mem term col row i j) :
    composite_mask P s cov x0 y0 w0 h0 i j = P i j := by
  unfold composite_mask
  rw [if_neg]
  rintro ⟨h1, h2, h3, h4⟩
  exact hout ⟨by linarith, by linarith, by linarith, by linarith⟩

/-- Helper: an image composite over a sub-rectangle of a cell does not
change points outside the cell rectangle. -/
theorem composite_image_sub_outside (term : Term) (col row : Nat) (P : Pix)
    (img : Int → Int → PColor) (x0 y0 w0 h0 i j : Int)
    (hx : (col : Int) * term.cell_width ≤ x0)
    (hw : x0 + w0 ≤ ((col : Int) + 1) * term.cell_width)
    (hy : (row : Int) * term.cell_height ≤ y0)
    (hh : y0 + h0 ≤ ((row : Int) + 1) * term.cell_height)
    (hout : ¬ cell_rect_mem term col row i j) :
    composite_image P img x0 y0 w0 h0 i j = P i j := by
  unfold composite_image
  rw [if_neg]
  rintro ⟨h1, h2, h3, h4⟩
  exact hout ⟨by linarith, by linarith, by linarith, by linarith⟩

/-- Helper (locality): for a fitting cell, render_cell only writes inside
the cell rectangle. -/
theorem render_cell_outside (term : Term) (pix : Pix) (cell : Cell)
    (col row : Nat) (hc : Bool) (i j : Int)
    (hfits : cell_fits term cell)
    (hout : ¬ cell_rect_mem term col row i j) :
    (render_cell term pix cell col row hc).pix i j = pix i j := by
  obtain ⟨hcw, hch, hglyph, hund, hstr⟩ := hfits
  obtain ⟨hu1, hu2⟩ := hund
  obtain ⟨hs1, hs2⟩ := hstr
  have hcol1 : ((col : Int) + 1) * term.cell_width =
      (col : Int) * term.cell_width + term.cell_width := by ring
  have hrow1 : ((row : Int) + 1) * term.cell_height =
      (row : Int) * term.cell_height + term.cell_height := by ring
  by_cases hclean : cell.attrs.clean
  · unfold render_cell
    rw [if_pos hclean]
  · unfold render_cell
    rw [if_neg hclean]
    have hfont : attrs_to_font term { cell.attrs with clean := true } =
        attrs_to_font term cell.attrs := rfl
    dsimp only
    simp only [hfont]
    simp only [draw_bar, draw_underline, draw_strikeout]
    have hbg : ∀ (P : Pix) (c : PColor) (wd : Int),
        wd ≤ term.cell_width →
        fill_rect P c ((col : Int) * term.cell_width)
          ((row : Int) * term.cell_height) (1 * wd) term.cell_height i j =
        P i j := by
      intro P c wd hwd
      exact fill_rect_sub_outside term col row P c _ _ _ _ i j le_rfl
        (by linarith) le_rfl (by linarith) hout
    have hbar : ∀ (P : Pix) (c : PColor),
        fill_rect P c ((col : Int) * term.cell_width)
          ((row : Int) * term.cell_height) 1 term.cell_height i j = P i j := by
      intro P c
      exact fill_rect_sub_outside term col row P c _ _ _ _ i j le_rfl
        (by linarith) le_rfl (by linarith) hout
    have hulf : ∀ (P : Pix) (c : PColor) (wd : Int), wd ≤ term.cell_width →
        fill_rect P c ((col : Int) * term.cell_width)
          ((row : Int) * term.cell_height + term.fextents.height -
            term.fextents.descent -
            (attrs_to_font term cell.attrs).underline.position -
            (attrs_to_font term cell.attrs).underline.thickness / 2)
          (1 * wd) (attrs_to_font term cell.attrs).underline.thickness i j =
        P i j := by
      intro P c wd hwd
      apply fill_rect_sub_outside term col row P c _ _ _ _ i j le_rfl
        (by linarith) (by linarith) (by linarith) hout
    have hskf : ∀ (P : Pix) (c : PColor) (wd : Int), wd ≤ term.cell_width →
        fill_rect P c ((col : Int) * term.cell_width)
          ((row : Int) * term.cell_height + term.fextents.height -
            term.fextents.descent -
            (attrs_to_font term cell.attrs).strikeout.position -
            (attrs_to_font term cell.attrs).strikeout.thickness / 2)
          (1 * wd) (attrs_to_font term cell.attrs).strikeout.thickness i j =
        P i j := by
      intro P c wd hwd
      apply fill_rect_sub_outside term col row P c _ _ _ _ i j le_rfl
        (by linarith) (by linarith) (by linarith) hout
    cases hg : (attrs_to_font term cell.attrs).glyphs cell.wc with
    | none =>
      simp only [apply_ite RCOut.pix, ite_apply, hbg _ _ _ le_rfl,
        hbar, hulf _ _ _ le_rfl, hskf _ _ _ le_rfl, ite_self]
    | some g =>
      rw [hg] at hglyph
      dsimp only at hglyph
      obtain ⟨hcols_le, hx0, hxw, hy0, hyh, hsurfb⟩ := hglyph
      have hcols : (1 : Int) ⊔ g.cols = 1 := sup_eq_left.mpr hcols_le
      simp only [hcols]
      have hgm : ∀ (P : Pix) (s : PColor) (cov : Int → Int → Nat),
          composite_mask P s cov ((col : Int) * term.cell_width + g.x)
            ((row : Int) * term.cell_height + term.fextents.ascent - g.y)
            g.width g.height i j = P i j := by
        intro P s cov
        apply composite_mask_sub_outside term col row P s cov _ _ _ _ i j
          (by linarith) (by linarith) (by linarith) (by linarith) hout
      have hgi : ∀ (P : Pix) (img : Int → Int → PColor),
          composite_image P img ((col : Int) * term.cell_width + g.x)
            ((row : Int) * term.cell_height + term.fextents.ascent - g.y)
            g.width g.height i j = P i j := by
        intro P img
        apply composite_image_sub_outside term col row P img _ _ _ _ i j
          (by linarith) (by linarith) (by linarith) (by linarith) hout
      cases hsf : g.surf with
      | image img =>
        simp only [apply_ite RCOut.pix, ite_apply, hbg _ _ _ le_rfl, hbar, hgi,
          hulf _ _ _ le_rfl, hskf _ _ _ le_rfl, ite_self]
      | mask cov =>
        simp only [apply_ite RCOut.pix, ite_apply, hbg _ _ _ le_rfl, hbar, hgm,
          hulf _ _ _ le_rfl, hskf _ _ _ le_rfl, ite_self]

/-- Helper: two cell rectangles overlap only if they are the same cell. -/
theorem cell_rect_mem_unique (term : Term) (c1 r1 c2 r2 : Nat) (i j : Int)
    (hcw : 1 ≤ term.cell_width) (hch : 1 ≤ term.cell_height)
    (h1 : cell_rect_mem term c1 r1 i j) (h2 : cell_rect_mem term c2 r2 i j) :
    (c1, r1) = (c2, r2) := by
  obtain ⟨a1, a2, a3, a4⟩ := h1
  obtain ⟨b1, b2, b3, b4⟩ := h2
  have hc : c1 = c2 := by
    by_contra hne
    rcases Nat.lt_or_ge c1 c2 with h | h
    · have hcast : ((c1 : Int) + 1) ≤ (c2 : Int) := by exact_mod_cast h
      have hm : ((c1 : Int) + 1) * term.cell_width ≤
          (c2 : Int) * term.cell_width :=
        mul_le_mul_of_nonneg_right hcast (by linarith)
      linarith
    · have h' : c2 < c1 := by omega
      have hcast : ((c2 : Int) + 1) ≤ (c1 : Int) := by exact_mod_cast h'
      have hm : ((c2 : Int) + 1) * term.cell_width ≤
          (c1 : Int) * term.cell_width :=
        mul_le_mul_of_nonneg_right hcast (by linarith)
      linarith
  have hr : r1 = r2 := by
    by_contra hne
    rcases Nat.lt_or_ge r1 r2 with h | h
    · have hcast : ((r1 : Int) + 1) ≤ (r2 : Int) := by exact_mod_cast h
      have hm : ((r1 : Int) + 1) * term.cell_height ≤
          (r2 : Int) * term.cell_height :=
        mul_le_mul_of_nonneg_right hcast (by linarith)
      linarith
    · have h' : r2 < r1 := by omega
      have hcast : ((r2 : Int) + 1) ≤ (r1 : Int) := by exact_mod_cast h'
      have hm : ((r2 : Int) + 1) * term.cell_height ≤
          (r1 : Int) * term.cell_height :=
        mul_le_mul_of_nonneg_right hcast (by linarith)
      linarith
  rw [hc, hr]

/-- Helper: the cell written back by render_cell is the input cell with its
clean bit set. -/
theorem render_cell_cell_out (term : Term) (pix : Pix) (cell : Cell)
    (col row : Nat) (hc : Bool) (h : cell.attrs.clean = false) :
    (render_cell term pix cell col row hc).cell =
      { cell with attrs := { cell.attrs with clean := true } } := by
  unfold render_cell
  rw [if_neg (by rw [h]; exact Bool.false_ne_true)]
  dsimp only
  rw [apply_ite RCOut.cell]
  dsimp only
  rw [ite_self]

/-- Helper: the blink flag returned by render_cell for a non-clean cell. -/
theorem render_cell_blink_out (term : Term) (pix : Pix) (cell : Cell)
    (col row : Nat) (hc : Bool) (h : cell.attrs.clean = false) :
    (render_cell term pix cell col row hc).blink_active =
      if cell.attrs.blink && !term.blink.active then true
      else term.blink.active := by
  unfold render_cell
  rw [if_neg (by rw [h]; exact Bool.false_ne_true)]
  dsimp only
  rw [apply_ite RCOut.blink_active]
  dsimp only
  rw [ite_self]

/-- Helper: reading a different cell after a one-cell grid update. -/
theorem update_cell_get_ne (g : Grid) (a b : Nat) (cl : Cell) (x y : Nat)
    (h : x ≠ a ∨ (g.view + y) % g.num_rows ≠ (g.view + b) % g.num_rows) :
    (grid_row_in_view (update_cell_in_grid g a b cl) y).cells x =
      (grid_row_in_view g y).cells x := by
  unfold grid_row_in_view update_cell_in_grid
  dsimp only
  split
  case isTrue hidx =>
    dsimp only
    split
    case isTrue hx =>
      rcases h with h | h
      · exact absurd hx h
      · exact absurd hidx h
    case isFalse hx => rw [hidx]
  case isFalse hidx => rfl

/-- Helper: after a one-cell grid update, any cell read back is either the
original cell at that position or the written cell. -/
theorem update_cell_get (g : Grid) (a b : Nat) (cl : Cell) (x y : Nat) :
    (grid_row_in_view (update_cell_in_grid g a b cl) y).cells x =
        (grid_row_in_view g y).cells x ∨
      (grid_row_in_view (update_cell_in_grid g a b cl) y).cells x = cl := by
  unfold grid_row_in_view update_cell_in_grid
  dsimp only
  split
  case isTrue hidx =>
    dsimp only
    split
    case isTrue hx => exact Or.inr rfl
    case isFalse hx =>
      left
      rw [hidx]
  case isFalse hidx => exact Or.inl rfl

/-- Helper: cell_rect_mem depends only on the cell dimensions. -/
theorem cell_rect_mem_congr (t1 t2 : Term) (c r : Nat) (i j : Int)
    (h1 : t1.cell_width = t2.cell_width)
    (h2 : t1.cell_height = t2.cell_height) :
    cell_rect_mem t1 c r i j ↔ cell_rect_mem t2 c r i j := by
  unfold cell_rect_mem
  rw [h1, h2]

/-- Helper: cell_fits depends only on fonts, extents and cell dimensions. -/
theorem cell_fits_congr (t1 t2 : Term) (cell : Cell)
    (h1 : t1.fonts = t2.fonts) (h2 : t1.fextents = t2.fextents)
    (h3 : t1.cell_width = t2.cell_width) (h4 : t1.cell_height = t2.cell_height) :
    cell_fits t1 cell ↔ cell_fits t2 cell := by
  unfold cell_fits attrs_to_font glyph_fits deco_band_fits
  rw [h1, h2, h3, h4]

/-- Helper: the cursor's in-view position depends only on the cursor and
the ring geometry. -/
theorem cursor_view_pos_congr (t1 t2 : Term)
    (h1 : t1.cursor = t2.cursor) (h2 : t1.grid.offset = t2.grid.offset)
    (h3 : t1.grid.view = t2.grid.view)
    (h4 : t1.grid.num_rows = t2.grid.num_rows) :
    cursor_view_pos t1 = cursor_view_pos t2 := by
  unfold cursor_view_pos cursor_abs_row
  rw [h1, h2, h3, h4]

/-- Helper: cursor visibility depends only on the cursor and the ring
geometry. -/
theorem cursor_is_visible_congr (t1 t2 : Term)
    (h1 : t1.cursor = t2.cursor) (h2 : t1.grid.offset = t2.grid.offset)
    (h3 : t1.grid.view = t2.grid.view)
    (h4 : t1.grid.num_rows = t2.grid.num_rows) (h5 : t1.rows = t2.rows) :
    cursor_is_visible t1 = cursor_is_visible t2 := by
  unfold cursor_is_visible view_end cursor_abs_row
  rw [h1, h2, h3, h4, h5]

/-- Helper: the erase phase also preserves the cursor, the ring geometry,
the fonts, metrics and palette. -/
theorem phase_erase_pres2 (s : FrameSt) :
    (phase_erase s).term.cursor = s.term.cursor ∧
    (phase_erase s).term.grid.offset = s.term.grid.offset ∧
    (phase_erase s).term.hide_cursor = s.term.hide_cursor ∧
    (phase_erase s).term.fonts = s.term.fonts ∧
    (phase_erase s).term.fextents = s.term.fextents ∧
    (phase_erase s).term.cell_width = s.term.cell_width ∧
    (phase_erase s).term.cell_height = s.term.cell_height ∧
    (phase_erase s).term.cursor_style = s.term.cursor_style ∧
    (phase_erase s).term.reverse = s.term.reverse ∧
    (phase_erase s).term.colors = s.term.colors ∧
    (phase_erase s).term.cursor_color = s.term.cursor_color ∧
    (phase_erase s).term.selection = s.term.selection := by
  unfold phase_erase run_render_cell
  cases hc : s.term.render.last_cursor_cell with
  | none => exact ⟨rfl, rfl, rfl, rfl, rfl, rfl, rfl, rfl, rfl, rfl, rfl, rfl⟩
  | some cr =>
    dsimp only
    split <;> split <;>
      exact ⟨rfl, rfl, rfl, rfl, rfl, rfl, rfl, rfl, rfl, rfl, rfl, rfl⟩

/-- Helper: the blink-disarm phase only touches the blink state. -/
theorem phase_blink_term (s : FrameSt) :
    (phase_blink s).term.grid = s.term.grid ∧
    (phase_blink s).term.cursor = s.term.cursor ∧
    (phase_blink s).term.hide_cursor = s.term.hide_cursor ∧
    (phase_blink s).term.fonts = s.term.fonts ∧
    (phase_blink s).term.fextents = s.term.fextents ∧
    (phase_blink s).term.cell_width = s.term.cell_width ∧
    (phase_blink s).term.cell_height = s.term.cell_height ∧
    (phase_blink s).term.flash_active = s.term.flash_active ∧
    (phase_blink s).term.render = s.term.render ∧
    (phase_blink s).term.rows = s.term.rows ∧
    (phase_blink s).term.cursor_style = s.term.cursor_style ∧
    (phase_blink s).term.reverse = s.term.reverse ∧
    (phase_blink s).term.colors = s.term.colors ∧
    (phase_blink s).term.cursor_color = s.term.cursor_color ∧
    (phase_blink s).term.selection = s.term.selection := by
  unfold phase_blink
  split <;>
    exact ⟨rfl, rfl, rfl, rfl, rfl, rfl, rfl, rfl, rfl, rfl, rfl, rfl, rfl, rfl,
      rfl⟩

/-- Helper: the cursor phase preserves the flash flag. -/
theorem phase_cursor_flash (s : FrameSt) :
    (phase_cursor s).term.flash_active = s.term.flash_active := by
  unfold phase_cursor run_render_cell
  split <;> rfl

/-- Helper: with an unarmed blink timer, the blink-disarm phase is the
identity. -/
theorem phase_blink_id (s : FrameSt) (h : s.term.blink.active = false) :
    phase_blink s = s := by
  unfold phase_blink
  rw [if_neg]
  intro hcond
  rw [h] at hcond
  exact Bool.false_ne_true hcond.1


/-- Helper: on a frame point inside a cell that is not the remembered
cursor cell, the erase phase leaves the pixel unchanged. -/
theorem phase_erase_pix (s : FrameSt) (c r : Nat) (i j : Int)
    (hin : cell_rect_mem s.term c r i j)
    (hA : ∀ a b, s.term.render.last_cursor_cell = some (a, b) →
      (a, b) ≠ (c, r) ∧
        cell_fits s.term ((grid_row_in_view s.term.grid b).cells a)) :
    (phase_erase s).pix i j = s.pix i j := by
  unfold phase_erase
  cases hc : s.term.render.last_cursor_cell with
  | none => rfl
  | some cr =>
    dsimp only
    obtain ⟨hne, hfit⟩ := hA cr.1 cr.2 (by rw [hc])
    rw [apply_ite FrameSt.pix]
    dsimp only
    rw [ite_self]
    rw [apply_ite FrameSt.pix]
    dsimp only
    simp only [ite_apply]
    split
    case isTrue hcl =>
      unfold run_render_cell
      dsimp only
      apply render_cell_outside
      · exact hfit
      · intro hmem
        exact hne (cell_rect_mem_unique s.term cr.1 cr.2 c r i j
          hfit.1 hfit.2.1 hmem hin)
    case isFalse hcl => rfl

/-- Helper: on a frame point inside a cell that is not the cursor cell,
the cursor phase leaves the pixel unchanged. -/
theorem phase_cursor_pix (s : FrameSt) (c r : Nat) (i j : Int)
    (hin : cell_rect_mem s.term c r i j)
    (hBne : cursor_view_pos s.term ≠ (c, r))
    (hBfit : cell_fits s.term
      ((grid_row_in_view s.term.grid (cursor_view_pos s.term).2).cells
        (cursor_view_pos s.term).1)) :
    (phase_cursor s).pix i j = s.pix i j := by
  unfold phase_cursor
  split
  case isTrue h =>
    dsimp only
    unfold run_render_cell
    dsimp only
    apply render_cell_outside
    · exact hBfit
    · intro hmem
      apply hBne
      exact cell_rect_mem_unique s.term _ _ c r i j hBfit.1 hBfit.2.1 hmem hin
  case isFalse h => rfl


/-- Helper: after the erase phase, any grid cell is either unchanged or
the repainted remembered cursor cell with its clean bit set. -/
theorem phase_erase_grid (s : FrameSt) (x y : Nat) :
    (grid_row_in_view (phase_erase s).term.grid y).cells x =
        (grid_row_in_view s.term.grid y).cells x ∨
      ∃ a b, s.term.render.last_cursor_cell = some (a, b) ∧
        (grid_row_in_view (phase_erase s).term.grid y).cells x =
          { (grid_row_in_view s.term.grid b).cells a with attrs :=
            { ((grid_row_in_view s.term.grid b).cells a).attrs with
              clean := true } } := by
  unfold phase_erase
  cases hc : s.term.render.last_cursor_cell with
  | none => exact Or.inl rfl
  | some cr =>
    dsimp only
    unfold run_render_cell
    dsimp only
    split <;> split
    case isTrue.isTrue h1 h2 =>
      rcases update_cell_get s.term.grid cr.1 cr.2
          (render_cell s.term s.pix
            { (grid_row_in_view s.term.grid cr.2).cells cr.1 with attrs :=
              { ((grid_row_in_view s.term.grid cr.2).cells cr.1).attrs with
                clean := false } } cr.1 cr.2 false).cell x y with ho | hw
      · exact Or.inl ho
      · right
        refine ⟨cr.1, cr.2, rfl, hw.trans ?_⟩
        rw [render_cell_cell_out _ _ _ _ _ _ rfl]
    case isTrue.isFalse h1 h2 => exact Or.inl rfl
    case isFalse.isTrue h1 h2 =>
      rcases update_cell_get s.term.grid cr.1 cr.2
          (render_cell s.term s.pix
            { (grid_row_in_view s.term.grid cr.2).cells cr.1 with attrs :=
              { ((grid_row_in_view s.term.grid cr.2).cells cr.1).attrs with
                clean := false } } cr.1 cr.2 false).cell x y with ho | hw
      · exact Or.inl ho
      · right
        refine ⟨cr.1, cr.2, rfl, hw.trans ?_⟩
        rw [render_cell_cell_out _ _ _ _ _ _ rfl]
    case isFalse.isFalse h1 h2 => exact Or.inl rfl

/-- Helper: the erase phase preserves cell_fits at every position. -/
theorem phase_erase_cell_fits (s : FrameSt) (x y : Nat)
    (hxy : cell_fits s.term ((grid_row_in_view s.term.grid y).cells x))
    (hA : ∀ a b, s.term.render.last_cursor_cell = some (a, b) →
      cell_fits s.term ((grid_row_in_view s.term.grid b).cells a)) :
    cell_fits (phase_erase s).term
      ((grid_row_in_view (phase_erase s).term.grid y).cells x) := by
  obtain ⟨q1, q2, q3, q4, q5, q6, q7, q8, q9, q10, q11, q12⟩ :=
    phase_erase_pres2 s
  rw [cell_fits_congr (phase_erase s).term s.term _ q4 q5 q6 q7]
  rcases phase_erase_grid s x y with ho | ⟨a, b, hc, hw⟩
  · rw [ho]
    exact hxy
  · rw [hw]
    exact hA a b hc

/-- Helper: the erase phase leaves cells at other grid positions
unchanged. -/
theorem phase_erase_cell_ne (s : FrameSt) (x y : Nat)
    (hne : ∀ a b, s.term.render.last_cursor_cell = some (a, b) →
      x ≠ a ∨ (s.term.grid.view + y) % s.term.grid.num_rows ≠
        (s.term.grid.view + b) % s.term.grid.num_rows) :
    (grid_row_in_view (phase_erase s).term.grid y).cells x =
      (grid_row_in_view s.term.grid y).cells x := by
  unfold phase_erase
  cases hc : s.term.render.last_cursor_cell with
  | none => rfl
  | some cr =>
    dsimp only
    unfold run_render_cell
    dsimp only
    split <;> split
    case isTrue.isTrue h1 h2 =>
      exact update_cell_get_ne s.term.grid cr.1 cr.2 _ x y
        (hne cr.1 cr.2 (by rw [hc]))
    case isTrue.isFalse h1 h2 => rfl
    case isFalse.isTrue h1 h2 =>
      exact update_cell_get_ne s.term.grid cr.1 cr.2 _ x y
        (hne cr.1 cr.2 (by rw [hc]))
    case isFalse.isFalse h1 h2 => rfl

/-- Helper: with an unarmed timer and a non-blinking remembered cell, the
erase phase preserves the blink state. -/
theorem phase_erase_blink_eq (s : FrameSt)
    (hact : s.term.blink.active = false)
    (hAb : ∀ a b, s.term.render.last_cursor_cell = some (a, b) →
      ((grid_row_in_view s.term.grid b).cells a).attrs.blink = false) :
    (phase_erase s).term.blink = s.term.blink := by
  unfold phase_erase run_render_cell
  cases hc : s.term.render.last_cursor_cell with
  | none => rfl
  | some cr =>
    dsimp only
    split <;> split <;> dsimp only <;>
      first
        | rfl
        | (rw [render_cell_blink_out _ _ _ _ _ _ rfl,
            hAb cr.1 cr.2 (by rw [hc])]
           simp [hact]
           rw [← hact])

/-- Helper: when a remembered cursor cell is clean, the erase phase
repaints exactly that cell with has_cursor = false. -/
theorem phase_erase_pix_eq (s : FrameSt) (a b : Nat)
    (hc : s.term.render.last_cursor_cell = some (a, b))
    (hclean : ((grid_row_in_view s.term.grid b).cells a).attrs.clean = true) :
    (phase_erase s).pix =
      (render_cell s.term s.pix
        { (grid_row_in_view s.term.grid b).cells a with attrs :=
          { ((grid_row_in_view s.term.grid b).cells a).attrs with
            clean := false } } a b false).pix := by
  unfold phase_erase
  rw [hc]
  dsimp only
  rw [if_pos hclean]
  rw [apply_ite FrameSt.pix]
  dsimp only
  rw [ite_self]
  unfold run_render_cell
  dsimp only
  simp

/-- Helper: with a visible, unhidden cursor, the cursor phase repaints
exactly the cursor cell with has_cursor = true. -/
theorem phase_cursor_fire (s : FrameSt)
    (hvis : cursor_is_visible s.term = true)
    (hhide : s.term.hide_cursor = false) :
    (phase_cursor s).pix =
      (render_cell
        { s.term with render := { s.term.render with
            last_cursor_actual := s.term.cursor
            last_cursor_in_view := (s.term.cursor.col, (cursor_view_pos s.term).2)
            last_cursor_cell := some (s.term.cursor.col, (cursor_view_pos s.term).2) } }
        s.pix
        { (grid_row_in_view s.term.grid (cursor_view_pos s.term).2).cells
            s.term.cursor.col with attrs :=
          { ((grid_row_in_view s.term.grid (cursor_view_pos s.term).2).cells
              s.term.cursor.col).attrs with clean := false } }
        s.term.cursor.col (cursor_view_pos s.term).2 true).pix := by
  unfold phase_cursor
  rw [if_pos (by rw [hvis, hhide]; rfl)]
  unfold run_render_cell
  dsimp only
  simp

/-- Helper: render_cell depends only on the listed terminal fields. -/
theorem render_cell_congr (t1 t2 : Term) (pix : Pix) (cell : Cell)
    (col row : Nat) (hcb : Bool)
    (h1 : t1.cell_width = t2.cell_width) (h2 : t1.cell_height = t2.cell_height)
    (h3 : t1.cursor_style = t2.cursor_style) (h4 : t1.reverse = t2.reverse)
    (h5 : t1.colors = t2.colors) (h6 : t1.cursor_color = t2.cursor_color)
    (h7 : t1.blink = t2.blink) (h8 : t1.fonts = t2.fonts)
    (h9 : t1.fextents = t2.fextents) (h10 : t1.selection = t2.selection)
    (h11 : t1.grid.view = t2.grid.view) :
    render_cell t1 pix cell col row hcb = render_cell t2 pix cell col row hcb := by
  unfold render_cell coord_is_selected block_cursor_flag blink_off
    cursor_override resolved_colors base_fg base_bg attrs_to_font draw_bar
    draw_underline draw_strikeout
  rw [h1, h2, h3, h4, h5, h6, h7, h8, h9, h10, h11]


/-- Helper: the clean early-exit of render_cell, as an equation. -/
theorem render_cell_clean_eq (term : Term) (pix : Pix) (cell : Cell)
    (col row : Nat) (hc : Bool) (h : cell.attrs.clean = true) :
    render_cell term pix cell col row hc = ⟨0, term.blink.active, cell, pix⟩ := by
  unfold render_cell
  rw [if_pos h]

/-- Helper: the cell render_cell writes back always has its clean bit set. -/
theorem render_cell_out_cell_clean (term : Term) (pix : Pix) (cell : Cell)
    (col row : Nat) (hc : Bool) :
    (render_cell term pix cell col row hc).cell.attrs.clean = true := by
  by_cases h : cell.attrs.clean = true
  · rw [render_cell_clean_eq term pix cell col row hc h]
    exact h
  · rw [render_cell_cell_out term pix cell col row hc
      (Bool.not_eq_true _ ▸ h)]

/-- Helper: the cell render_cell writes back is the input cell, possibly
with its clean bit set. -/
theorem render_cell_cell_cases (term : Term) (pix : Pix) (cell : Cell)
    (col row : Nat) (hc : Bool) :
    (render_cell term pix cell col row hc).cell = cell ∨
    (render_cell term pix cell col row hc).cell =
      { cell with attrs := { cell.attrs with clean := true } } := by
  by_cases h : cell.attrs.clean = true
  · left
    rw [render_cell_clean_eq term pix cell col row hc h]
  · right
    exact render_cell_cell_out term pix cell col row hc
      (Bool.not_eq_true _ ▸ h)

/-- Helper: toggling a row's dirty flag changes no cell. -/
theorem set_row_dirty_cells (g : Grid) (r' : Nat) (d : Bool) (y x : Nat) :
    (grid_row_in_view (set_row_dirty g r' d) y).cells x =
      (grid_row_in_view g y).cells x := by
  unfold grid_row_in_view set_row_dirty
  dsimp only
  split
  case isTrue h => rw [h]
  case isFalse h => rfl

/-- Helper: one render_row step (render_cell at an in-bounds cell, without
cursor) preserves the frame invariant and the pixels of the clean cell's
rectangle. -/
theorem run_render_cell_ok (t0 : Term) (c r : Nat) (i j : Int)
    (T : Term) (P : Pix) (x y : Nat)
    (hin : cell_rect_mem t0 c r i j)
    (hfits0 : ∀ y' x', y' < t0.rows → x' < t0.cols →
      cell_fits t0 ((grid_row_in_view t0.grid y').cells x'))
    (hok : cells_ok t0 c r T) (hy : y < t0.rows) (hx : x < t0.cols) :
    cells_ok t0 c r (run_render_cell T P x y false false).1 ∧
    (run_render_cell T P x y false false).2 i j = P i j := by
  obtain ⟨k1, k2, k3, k4, k5, k6, k7, k8, k9, k10, k11, k12, k13⟩ := hok
  have hfitsT : cell_fits t0 ((grid_row_in_view T.grid y).cells x) := by
    rcases k13 y x with ho | hf
    · rw [ho]
      exact hfits0 y x hy hx
    · exact hf
  unfold run_render_cell
  dsimp only
  simp only [Bool.false_eq_true, if_false]
  constructor
  · refine ⟨k1, k2, k3, k4, k5, k6, k7, k8, k9, k10, k11, ?_, ?_⟩
    · rcases update_cell_get T.grid x y
          (render_cell T P ((grid_row_in_view T.grid y).cells x) x y
            false).cell c r with ho | hw
      · rw [ho]
        exact k12
      · rw [hw]
        exact render_cell_out_cell_clean T P _ x y false
    · intro y' x'
      rcases update_cell_get T.grid x y
          (render_cell T P ((grid_row_in_view T.grid y).cells x) x y
            false).cell x' y' with ho | hw
      · rw [ho]
        exact k13 y' x'
      · right
        rw [hw]
        rcases render_cell_cell_cases T P ((grid_row_in_view T.grid y).cells x)
            x y false with hc1 | hc2
        · rw [hc1]
          exact hfitsT
        · rw [hc2]
          exact hfitsT
  · by_cases hcc : ((grid_row_in_view T.grid y).cells x).attrs.clean = true
    · rw [render_cell_clean_eq T P _ x y false hcc]
    · refine render_cell_outside T P _ x y false i j ?_ ?_
      · rw [cell_fits_congr T t0 _ k3 k4 k1 k2]
        exact hfitsT
      · intro hmem
        rw [cell_rect_mem_congr T t0 x y i j k1 k2] at hmem
        have heq := cell_rect_mem_unique t0 x y c r i j hfitsT.1 hfitsT.2.1
          hmem hin
        have hxc : x = c := congrArg Prod.fst heq
        have hyr : y = r := congrArg Prod.snd heq
        subst hxc
        subst hyr
        exact hcc k12

/-- Helper: folding render_cell over a list of in-bounds columns preserves
the frame invariant and the pixels of the clean cell's rectangle. -/
theorem render_row_fold_ok (t0 : Term) (c r : Nat) (i j : Int)
    (hin : cell_rect_mem t0 c r i j)
    (hfits0 : ∀ y' x', y' < t0.rows → x' < t0.cols →
      cell_fits t0 ((grid_row_in_view t0.grid y').cells x'))
    (y : Nat) (hy : y < t0.rows) :
    ∀ (l : List Nat), (∀ v ∈ l, v < t0.cols) → ∀ (tp : Term × Pix),
      cells_ok t0 c r tp.1 →
      cells_ok t0 c r (l.foldl
        (fun tp c' => run_render_cell tp.1 tp.2 c' y false false) tp).1 ∧
      (l.foldl (fun tp c' => run_render_cell tp.1 tp.2 c' y false false)
        tp).2 i j = tp.2 i j := by
  intro l
  induction l with
  | nil => exact fun _ tp hok => ⟨hok, rfl⟩
  | cons a l ih =>
    intro hl tp hok
    rw [List.foldl_cons]
    have hstep := run_render_cell_ok t0 c r i j tp.1 tp.2 a y hin hfits0 hok
      hy (hl a (List.mem_cons_self a l))
    have hrest := ih (fun v hv => hl v (List.mem_cons_of_mem a hv))
      (run_render_cell tp.1 tp.2 a y false false) hstep.1
    exact ⟨hrest.1, hrest.2.trans hstep.2⟩

/-- Helper: rendering one full in-bounds row preserves the frame invariant
and the pixels of the clean cell's rectangle. -/
theorem render_row_model_ok (t0 : Term) (c r : Nat) (i j : Int)
    (hin : cell_rect_mem t0 c r i j)
    (hfits0 : ∀ y' x', y' < t0.rows → x' < t0.cols →
      cell_fits t0 ((grid_row_in_view t0.grid y').cells x'))
    (T : Term) (P : Pix) (y : Nat)
    (hok : cells_ok t0 c r T) (hy : y < t0.rows) :
    cells_ok t0 c r (render_row_model T P y).1 ∧
    (render_row_model T P y).2 i j = P i j := by
  unfold render_row_model
  refine render_row_fold_ok t0 c r i j hin hfits0 y hy _ ?_ (T, P) hok
  intro v hv
  rw [List.mem_reverse] at hv
  have hvc := List.mem_range.mp hv
  rw [hok.2.2.2.2.2.1] at hvc
  exact hvc

/-- Helper: the dirty-row dispatch phase preserves the frame invariant and
the pixels of the clean cell's rectangle. -/
theorem phase_rows_ok (t0 : Term) (c r : Nat) (i j : Int)
    (hin : cell_rect_mem t0 c r i j)
    (hfits0 : ∀ y' x', y' < t0.rows → x' < t0.cols →
      cell_fits t0 ((grid_row_in_view t0.grid y').cells x'))
    (s : FrameSt) (hok : cells_ok t0 c r s.term) :
    cells_ok t0 c r (phase_rows s).term ∧
    (phase_rows s).pix i j = s.pix i j := by
  unfold phase_rows
  have key : ∀ (l : List Nat), (∀ v ∈ l, v < t0.rows) → ∀ (st : FrameSt),
      cells_ok t0 c r st.term →
      cells_ok t0 c r ((l.foldl (fun st r' =>
        if (grid_row_in_view st.term.grid r').dirty then
          { term := { (render_row_model st.term st.pix r').1 with
              grid := set_row_dirty (render_row_model st.term st.pix r').1.grid
                r' false }
            pix := (render_row_model st.term st.pix r').2
            all_clean := false }
        else st) st).term) ∧
      (l.foldl (fun st r' =>
        if (grid_row_in_view st.term.grid r').dirty then
          { term := { (render_row_model st.term st.pix r').1 with
              grid := set_row_dirty (render_row_model st.term st.pix r').1.grid
                r' false }
            pix := (render_row_model st.term st.pix r').2
            all_clean := false }
        else st) st).pix i j = st.pix i j := by
    intro l
    induction l with
    | nil => exact fun _ st hok' => ⟨hok', rfl⟩
    | cons a l ih =>
      intro hl st hok'
      rw [List.foldl_cons]
      by_cases hd : (grid_row_in_view st.term.grid a).dirty = true
      · rw [if_pos hd]
        have ha : a < t0.rows := hl a (List.mem_cons_self a l)
        have hrm := render_row_model_ok t0 c r i j hin hfits0 st.term st.pix a
          hok' ha
        obtain ⟨m1, m2, m3, m4, m5, m6, m7, m8, m9, m10, m11, m12, m13⟩ :=
          hrm.1
        have hok2 : cells_ok t0 c r
            { (render_row_model st.term st.pix a).1 with
              grid := set_row_dirty (render_row_model st.term st.pix a).1.grid
                a false } := by
          refine ⟨m1, m2, m3, m4, m5, m6, m7, m8, m9, m10, m11, ?_, ?_⟩
          · rw [show (grid_row_in_view (set_row_dirty
                (render_row_model st.term st.pix a).1.grid a false) r).cells c =
              (grid_row_in_view (render_row_model st.term st.pix a).1.grid
                r).cells c from set_row_dirty_cells _ a false r c]
            exact m12
          · intro y x
            rw [show (grid_row_in_view (set_row_dirty
                (render_row_model st.term st.pix a).1.grid a false) y).cells x =
              (grid_row_in_view (render_row_model st.term st.pix a).1.grid
                y).cells x from set_row_dirty_cells _ a false y x]
            exact m13 y x
        have hrest := ih (fun v hv => hl v (List.mem_cons_of_mem a hv))
          { term := { (render_row_model st.term st.pix a).1 with
              grid := set_row_dirty (render_row_model st.term st.pix a).1.grid
                a false }
            pix := (render_row_model st.term st.pix a).2
            all_clean := false } hok2
        exact ⟨hrest.1, hrest.2.trans hrm.2⟩
      · rw [if_neg hd]
        exact ih (fun v hv => hl v (List.mem_cons_of_mem a hv)) st hok'
  refine key (List.range s.term.rows) ?_ s hok
  intro v hv
  have hvr := List.mem_range.mp hv
  rw [hok.2.2.2.2.1] at hvr
  exact hvr

/-- C2 (amended): for every cell whose clean bit is set on entry,
render_cell returns 0 and leaves the cell, the blink state and every pixel
of the target surface unchanged; and over a full frame — with an empty
scroll log, no flash, an unchanged buffer, and every in-view cell painting
only inside its own rectangle — a cell that is clean when the frame begins
and is neither the remembered last-cursor cell nor the cell under the
cursor has an untouched pixel region when the frame ends, even while other
dirty rows are repainted around it. (The scroll memmove, a wide glyph of a
neighbouring cell, the cursor-erase repaint and the cursor draw can all
repaint a clean cell, so the claim's unconditional consequent fails.) -/
theorem clean_cell_untouched (t : Term) (bufId : Nat) (pix : Pix) (c r : Nat)
    (hscroll : t.grid.scroll_damage = [])
    (hflash : t.flash_active = false)
    (hwas : t.render.was_flashing = false)
    (hbuf : t.render.last_buf = bufId)
    (hclean : ((grid_row_in_view t.grid r).cells c).attrs.clean = true)
    (hfits : ∀ r' c', r' < t.rows → c' < t.cols →
      cell_fits t ((grid_row_in_view t.grid r').cells c'))
    (hA : ∀ a b, t.render.last_cursor_cell = some (a, b) →
      (a, b) ≠ (c, r) ∧ cell_fits t ((grid_row_in_view t.grid b).cells a))
    (hBne : cursor_view_pos t ≠ (c, r))
    (hBfit : cell_fits t
      ((grid_row_in_view t.grid (cursor_view_pos t).2).cells
        (cursor_view_pos t).1)) :
    (∀ (t' : Term) (p : Pix) (cell : Cell) (col row : Nat) (hcb : Bool),
      cell.attrs.clean = true →
      render_cell t' p cell col row hcb = ⟨0, t'.blink.active, cell, p⟩) ∧
    (∀ i j, cell_rect_mem t c r i j →
      (grid_render t bufId pix).pix i j = pix i j) := by
  constructor
  · intro t' p cell col row hcb h
    unfold render_cell
    rw [if_pos h]
  · intro i j hin
    unfold grid_render
    dsimp only
    obtain ⟨pf, pw, pb, ps, pr, pc, pv, pn, pd⟩ :=
      phase_erase_pres ⟨t, pix, t.grid.scroll_damage.isEmpty⟩
    obtain ⟨q1, q2, q3, q4, q5, q6, q7, q8, q9, q10, q11, q12⟩ :=
      phase_erase_pres2 ⟨t, pix, t.grid.scroll_damage.isEmpty⟩
    have e1 : phase_flash_damage
        (phase_erase ⟨t, pix, t.grid.scroll_damage.isEmpty⟩) =
        phase_erase ⟨t, pix, t.grid.scroll_damage.isEmpty⟩ :=
      phase_flash_damage_id _ (pf.trans hflash)
    rw [e1]
    have e2 : phase_newbuf bufId
        (phase_erase ⟨t, pix, t.grid.scroll_damage.isEmpty⟩) =
        phase_erase ⟨t, pix, t.grid.scroll_damage.isEmpty⟩ :=
      phase_newbuf_id bufId _ (pb.trans hbuf) (pf.trans hflash) (pw.trans hwas)
    rw [e2]
    have e3 : phase_scroll (phase_erase ⟨t, pix, t.grid.scroll_damage.isEmpty⟩) =
        phase_erase ⟨t, pix, t.grid.scroll_damage.isEmpty⟩ :=
      phase_scroll_id _ (ps.trans hscroll)
    rw [e3]
    have hokA : cells_ok t c r
        (phase_erase ⟨t, pix, t.grid.scroll_damage.isEmpty⟩).term := by
      refine ⟨q6, q7, q4, q5, pr, pc, q1, q2, pv, pn, pf, ?_, ?_⟩
      · rcases phase_erase_grid ⟨t, pix, t.grid.scroll_damage.isEmpty⟩ c r with
          ho | ⟨a, b, hcab, hw⟩
        · rw [ho]
          exact hclean
        · rw [hw]
      · intro y x
        rcases phase_erase_grid ⟨t, pix, t.grid.scroll_damage.isEmpty⟩ x y with
          ho | ⟨a, b, hcab, hw⟩
        · exact Or.inl ho
        · right
          rw [hw]
          exact (hA a b hcab).2
    have hrows := phase_rows_ok t c r i j hin hfits
      (phase_erase ⟨t, pix, t.grid.scroll_damage.isEmpty⟩) hokA
    obtain ⟨n1, n2, n3, n4, n5, n6, n7, n8, n9, n10, n11, n12, n13⟩ := hrows.1
    obtain ⟨b1, b2, b3, b4, b5, b6, b7, b8, b9, b10, b11, b12, b13, b14, b15⟩ :=
      phase_blink_term (phase_rows
        (phase_erase ⟨t, pix, t.grid.scroll_damage.isEmpty⟩))
    have hfl : (phase_cursor (phase_blink (phase_rows
        (phase_erase ⟨t, pix,
          t.grid.scroll_damage.isEmpty⟩)))).term.flash_active = false :=
      (phase_cursor_flash _).trans (b8.trans (n11.trans hflash))
    rw [apply_ite FrameOut.pix]
    dsimp only
    simp only [ite_apply, hfl, Bool.false_eq_true, if_false, ite_self]
    have hcvpB : cursor_view_pos (phase_blink (phase_rows
        (phase_erase ⟨t, pix, t.grid.scroll_damage.isEmpty⟩))).term =
        cursor_view_pos t := by
      rw [cursor_view_pos_congr _ (phase_rows
        (phase_erase ⟨t, pix, t.grid.scroll_damage.isEmpty⟩)).term b2
        (congrArg Grid.offset b1) (congrArg Grid.view b1)
        (congrArg Grid.num_rows b1)]
      exact cursor_view_pos_congr _ t n7 n8 n9 n10
    have hstep1 : (phase_cursor (phase_blink (phase_rows
        (phase_erase ⟨t, pix, t.grid.scroll_damage.isEmpty⟩)))).pix i j =
        (phase_blink (phase_rows
          (phase_erase ⟨t, pix, t.grid.scroll_damage.isEmpty⟩))).pix i j := by
      apply phase_cursor_pix
      · rw [cell_rect_mem_congr _ t c r i j (b6.trans n1) (b7.trans n2)]
        exact hin
      · rw [hcvpB]
        exact hBne
      · rw [hcvpB]
        rw [cell_fits_congr _ t _ (b4.trans n3) (b5.trans n4) (b6.trans n1)
          (b7.trans n2)]
        rw [show (grid_row_in_view (phase_blink (phase_rows
            (phase_erase ⟨t, pix, t.grid.scroll_damage.isEmpty⟩))).term.grid
            (cursor_view_pos t).2).cells (cursor_view_pos t).1 =
          (grid_row_in_view (phase_rows
            (phase_erase ⟨t, pix, t.grid.scroll_damage.isEmpty⟩)).term.grid
            (cursor_view_pos t).2).cells (cursor_view_pos t).1 from by
          rw [b1]]
        rcases n13 (cursor_view_pos t).2 (cursor_view_pos t).1 with ho | hf
        · rw [ho]
          exact hBfit
        · exact hf
    rw [hstep1]
    rw [(phase_blink_pres (phase_rows
      (phase_erase ⟨t, pix, t.grid.scroll_damage.isEmpty⟩))).2]
    refine hrows.2.trans ?_
    exact phase_erase_pix ⟨t, pix, t.grid.scroll_damage.isEmpty⟩ c r i j hin hA

/-- C2 counterexample: in term_cx2 the cell at (0, 0) is clean when the
frame begins, yet grid_render repaints it (it is the remembered cursor
cell being erased), so its pixel region changes. -/
theorem clean_cell_frame_cex :
    ((grid_row_in_view term_cx2.grid 0).cells 0).attrs.clean = true ∧
    (grid_render term_cx2 0 pix_white).pix 0 0 ≠ pix_white 0 0 := by decide

/-- Witness for C2: in term_c2w the first row is dirty and is repainted
during the frame, yet the clean cell at (0, 1) keeps its pixel. -/
theorem clean_cell_untouched_witness :
    (grid_row_in_view term_c2w.grid 0).dirty = true ∧
    ((grid_row_in_view term_c2w.grid 1).cells 0).attrs.clean = true ∧
    (grid_render term_c2w 0 pix_white).pix 0 1 = pix_white 0 1 :=
  ⟨rfl, rfl,
    (clean_cell_untouched term_c2w 0 pix_white 0 1 rfl rfl rfl rfl rfl
      (fun r' c' hr _ => by
        have h2 : r' < 2 := hr
        interval_cases r'
        · show cell_fits term_c2w { wc := 0, attrs := { clean := false } }
          exact ⟨by decide, by decide, trivial, ⟨by decide, by decide⟩,
            ⟨by decide, by decide⟩⟩
        · show cell_fits term_c2w clean_cell
          exact ⟨by decide, by decide, trivial, ⟨by decide, by decide⟩,
            ⟨by decide, by decide⟩⟩)
      (fun a b h => Option.noConfusion h)
      (by decide)
      ⟨by decide, by decide, trivial, ⟨by decide, by decide⟩,
        ⟨by decide, by decide⟩⟩).2
      0 1 ⟨by decide, by decide, by decide, by decide⟩⟩


end Foot

namespace Foot

/-- Helper: render_cell ignores the render bookkeeping state, so replacing
it leaves the result unchanged whenever the fields render_cell reads agree. -/
theorem render_cell_congr_render (t0 : Term) (rs : RenderSt) (t2 : Term)
    (pix : Pix) (cell : Cell) (col row : Nat) (hcb : Bool)
    (h1 : t0.cell_width = t2.cell_width) (h2 : t0.cell_height = t2.cell_height)
    (h3 : t0.cursor_style = t2.cursor_style) (h4 : t0.reverse = t2.reverse)
    (h5 : t0.colors = t2.colors) (h6 : t0.cursor_color = t2.cursor_color)
    (h7 : t0.blink = t2.blink) (h8 : t0.fonts = t2.fonts)
    (h9 : t0.fextents = t2.fextents) (h10 : t0.selection = t2.selection)
    (h11 : t0.grid.view = t2.grid.view) :
    render_cell { t0 with render := rs } pix cell col row hcb =
      render_cell t2 pix cell col row hcb :=
  render_cell_congr _ t2 pix cell col row hcb h1 h2 h3 h4 h5 h6 h7 h8 h9 h10 h11

/-- Helper: in a cursor-moved frame (no scroll damage, no dirty rows, no
flash, the remembered cursor cell (a, b) clean, non-blinking and distinct
from the new cursor cell, cursor visible), the frame's pixel output is
exactly the repaint of (a, b) with its clean bit cleared and
has_cursor = false, followed by the repaint of the cursor cell with its
clean bit cleared and has_cursor = true. -/
theorem cursor_move_frame (t : Term) (bufId : Nat) (pix : Pix) (a b : Nat)
    (hscroll : t.grid.scroll_damage = [])
    (hdirty : ∀ r', r' < t.rows → (grid_row_in_view t.grid r').dirty = false)
    (hflash : t.flash_active = false)
    (hwas : t.render.was_flashing = false)
    (hbuf : t.render.last_buf = bufId)
    (hlast : t.render.last_cursor_cell = some (a, b))
    (hAclean : ((grid_row_in_view t.grid b).cells a).attrs.clean = true)
    (hAfit : cell_fits t ((grid_row_in_view t.grid b).cells a))
    (hAblink : ((grid_row_in_view t.grid b).cells a).attrs.blink = false)
    (hact : t.blink.active = false)
    (hvis : cursor_is_visible t = true)
    (hhide : t.hide_cursor = false)
    (hBne : (a, b) ≠ cursor_view_pos t)
    (hBfit : cell_fits t
      ((grid_row_in_view t.grid (cursor_view_pos t).2).cells
        (cursor_view_pos t).1))
    (hbn : b < t.grid.num_rows) :
    (grid_render t bufId pix).pix =
      (render_cell t
        (render_cell t pix
          { (grid_row_in_view t.grid b).cells a with attrs :=
            { ((grid_row_in_view t.grid b).cells a).attrs with clean := false } }
          a b false).pix
        { (grid_row_in_view t.grid (cursor_view_pos t).2).cells
            (cursor_view_pos t).1 with attrs :=
          { ((grid_row_in_view t.grid (cursor_view_pos t).2).cells
              (cursor_view_pos t).1).attrs with clean := false } }
        (cursor_view_pos t).1 (cursor_view_pos t).2 true).pix := by
  unfold grid_render
  dsimp only
  obtain ⟨pf, pw, pb, ps, pr, pc, pv, pn, pd⟩ :=
    phase_erase_pres ⟨t, pix, t.grid.scroll_damage.isEmpty⟩
  obtain ⟨q1, q2, q3, q4, q5, q6, q7, q8, q9, q10, q11, q12⟩ :=
    phase_erase_pres2 ⟨t, pix, t.grid.scroll_damage.isEmpty⟩
  have e1 : phase_flash_damage
      (phase_erase ⟨t, pix, t.grid.scroll_damage.isEmpty⟩) =
      phase_erase ⟨t, pix, t.grid.scroll_damage.isEmpty⟩ :=
    phase_flash_damage_id _ (pf.trans hflash)
  rw [e1]
  have e2 : phase_newbuf bufId
      (phase_erase ⟨t, pix, t.grid.scroll_damage.isEmpty⟩) =
      phase_erase ⟨t, pix, t.grid.scroll_damage.isEmpty⟩ :=
    phase_newbuf_id bufId _ (pb.trans hbuf) (pf.trans hflash) (pw.trans hwas)
  rw [e2]
  have e3 : phase_scroll (phase_erase ⟨t, pix, t.grid.scroll_damage.isEmpty⟩) =
      phase_erase ⟨t, pix, t.grid.scroll_damage.isEmpty⟩ :=
    phase_scroll_id _ (ps.trans hscroll)
  rw [e3]
  have e4 : phase_rows (phase_erase ⟨t, pix, t.grid.scroll_damage.isEmpty⟩) =
      phase_erase ⟨t, pix, t.grid.scroll_damage.isEmpty⟩ := by
    apply phase_rows_id
    intro r' hr'
    unfold grid_row_in_view
    rw [pv, pn, pd]
    exact hdirty r' (by rw [← pr]; exact hr')
  rw [e4]
  have hAb2 : ∀ a' b',
      (⟨t, pix, t.grid.scroll_damage.isEmpty⟩ : FrameSt).term.render.last_cursor_cell
        = some (a', b') →
      ((grid_row_in_view t.grid b').cells a').attrs.blink = false := by
    intro a' b' h
    rw [show (⟨t, pix, t.grid.scroll_damage.isEmpty⟩ : FrameSt).term = t from rfl,
      hlast] at h
    have h2 := Option.some.inj h
    obtain ⟨rfl, rfl⟩ : a = a' ∧ b = b' :=
      ⟨congrArg Prod.fst h2, congrArg Prod.snd h2⟩
    exact hAblink
  have hblinkeq : (phase_erase ⟨t, pix, t.grid.scroll_damage.isEmpty⟩).term.blink
      = t.blink :=
    phase_erase_blink_eq _ hact hAb2
  have e5 : phase_blink (phase_erase ⟨t, pix, t.grid.scroll_damage.isEmpty⟩) =
      phase_erase ⟨t, pix, t.grid.scroll_damage.isEmpty⟩ :=
    phase_blink_id _ ((congrArg Blink.active hblinkeq).trans hact)
  rw [e5]
  have hfl : (phase_cursor
      (phase_erase ⟨t, pix, t.grid.scroll_damage.isEmpty⟩)).term.flash_active
      = false :=
    (phase_cursor_flash _).trans (pf.trans hflash)
  rw [apply_ite FrameOut.pix]
  dsimp only
  simp only [hfl, Bool.false_eq_true, if_false, ite_self]
  have hvisX : cursor_is_visible
      (phase_erase ⟨t, pix, t.grid.scroll_damage.isEmpty⟩).term = true := by
    rw [cursor_is_visible_congr _ t q1 q2 pv pn pr]
    exact hvis
  have hhideX : (phase_erase ⟨t, pix, t.grid.scroll_damage.isEmpty⟩).term.hide_cursor
      = false := q3.trans hhide
  rw [phase_cursor_fire _ hvisX hhideX]
  have hcvpX : cursor_view_pos
      (phase_erase ⟨t, pix, t.grid.scroll_damage.isEmpty⟩).term =
      cursor_view_pos t := cursor_view_pos_congr _ t q1 q2 pv pn
  have hpixA : (phase_erase ⟨t, pix, t.grid.scroll_damage.isEmpty⟩).pix =
      (render_cell t pix
        { (grid_row_in_view t.grid b).cells a with attrs :=
          { ((grid_row_in_view t.grid b).cells a).attrs with clean := false } }
        a b false).pix :=
    phase_erase_pix_eq ⟨t, pix, t.grid.scroll_damage.isEmpty⟩ a b hlast hAclean
  have hne2 : ∀ a' b',
      (⟨t, pix, t.grid.scroll_damage.isEmpty⟩ : FrameSt).term.render.last_cursor_cell
        = some (a', b') →
      (cursor_view_pos t).1 ≠ a' ∨
        ((⟨t, pix, t.grid.scroll_damage.isEmpty⟩ : FrameSt).term.grid.view +
            (cursor_view_pos t).2) %
            (⟨t, pix, t.grid.scroll_damage.isEmpty⟩ : FrameSt).term.grid.num_rows ≠
          ((⟨t, pix, t.grid.scroll_damage.isEmpty⟩ : FrameSt).term.grid.view + b') %
            (⟨t, pix, t.grid.scroll_damage.isEmpty⟩ : FrameSt).term.grid.num_rows := by
    intro a' b' h
    rw [show (⟨t, pix, t.grid.scroll_damage.isEmpty⟩ : FrameSt).term = t from rfl,
      hlast] at h
    have h2 := Option.some.inj h
    obtain ⟨rfl, rfl⟩ : a = a' ∧ b = b' :=
      ⟨congrArg Prod.fst h2, congrArg Prod.snd h2⟩
    by_cases hcol : (cursor_view_pos t).1 = a
    · right
      intro hmod
      apply hBne
      have hm : (t.grid.view + (cursor_view_pos t).2) % t.grid.num_rows =
          (t.grid.view + b) % t.grid.num_rows := hmod
      have hm2 : Nat.ModEq t.grid.num_rows (t.grid.view + (cursor_view_pos t).2)
          (t.grid.view + b) := hm
      have hm3 : Nat.ModEq t.grid.num_rows (cursor_view_pos t).2 b :=
        Nat.ModEq.add_left_cancel (Nat.ModEq.refl _) hm2
      have hn0 : 0 < t.grid.num_rows := by omega
      have hvarlt : (cursor_view_pos t).2 < t.grid.num_rows := by
        unfold cursor_view_pos
        exact Nat.mod_lt _ hn0
      have hvb : (cursor_view_pos t).2 = b := by
        have := hm3
        unfold Nat.ModEq at this
        rw [Nat.mod_eq_of_lt hvarlt, Nat.mod_eq_of_lt hbn] at this
        exact this
      have hx : cursor_view_pos t = ((cursor_view_pos t).1, (cursor_view_pos t).2) :=
        rfl
      rw [hx, ← hcol, hvb]
    · exact Or.inl hcol
  have hcellB : (grid_row_in_view
      (phase_erase ⟨t, pix, t.grid.scroll_damage.isEmpty⟩).term.grid
      (cursor_view_pos
        (phase_erase ⟨t, pix, t.grid.scroll_damage.isEmpty⟩).term).2).cells
      (phase_erase ⟨t, pix, t.grid.scroll_damage.isEmpty⟩).term.cursor.col =
      (grid_row_in_view t.grid (cursor_view_pos t).2).cells
        (cursor_view_pos t).1 := by
    rw [hcvpX, q1]
    exact phase_erase_cell_ne ⟨t, pix, t.grid.scroll_damage.isEmpty⟩
      (cursor_view_pos t).1 (cursor_view_pos t).2 hne2
  rw [render_cell_congr_render _ _ t _ _ _ _ _ q6 q7 q8 q9 q10 q11 hblinkeq
    q4 q5 q12 pv]
  rw [hpixA, hcellB, hcvpX, q1]
  rfl

end Foot

namespace Foot

/-- C5: when the cursor has moved from remembered cell A = (a, b) to cell
B = cursor_view_pos t with everything else unchanged (no scroll damage, no
dirty rows, no flash, A clean and non-blinking, A ≠ B, cursor visible),
after the frame A's pixel region holds the repaint of A with
has_cursor = false — the frame first clears A's clean bit and repaints it
without the cursor — B's pixel region holds the subsequent repaint of B
with has_cursor = true, and every pixel outside both cell rectangles is
unchanged. -/
theorem cursor_move_frame_spec (t : Term) (bufId : Nat) (pix : Pix) (a b : Nat)
    (hscroll : t.grid.scroll_damage = [])
    (hdirty : ∀ r', r' < t.rows → (grid_row_in_view t.grid r').dirty = false)
    (hflash : t.flash_active = false)
    (hwas : t.render.was_flashing = false)
    (hbuf : t.render.last_buf = bufId)
    (hlast : t.render.last_cursor_cell = some (a, b))
    (hAclean : ((grid_row_in_view t.grid b).cells a).attrs.clean = true)
    (hAfit : cell_fits t ((grid_row_in_view t.grid b).cells a))
    (hAblink : ((grid_row_in_view t.grid b).cells a).attrs.blink = false)
    (hact : t.blink.active = false)
    (hvis : cursor_is_visible t = true)
    (hhide : t.hide_cursor = false)
    (hBne : (a, b) ≠ cursor_view_pos t)
    (hBfit : cell_fits t
      ((grid_row_in_view t.grid (cursor_view_pos t).2).cells
        (cursor_view_pos t).1))
    (hbn : b < t.grid.num_rows) :
    (∀ i j, cell_rect_mem t a b i j →
      (grid_render t bufId pix).pix i j =
        (render_cell t pix
          { (grid_row_in_view t.grid b).cells a with attrs :=
            { ((grid_row_in_view t.grid b).cells a).attrs with clean := false } }
          a b false).pix i j) ∧
    (∀ i j, cell_rect_mem t (cursor_view_pos t).1 (cursor_view_pos t).2 i j →
      (grid_render t bufId pix).pix i j =
        (render_cell t
          (render_cell t pix
            { (grid_row_in_view t.grid b).cells a with attrs :=
              { ((grid_row_in_view t.grid b).cells a).attrs with clean := false } }
            a b false).pix
          { (grid_row_in_view t.grid (cursor_view_pos t).2).cells
              (cursor_view_pos t).1 with attrs :=
            { ((grid_row_in_view t.grid (cursor_view_pos t).2).cells
                (cursor_view_pos t).1).attrs with clean := false } }
          (cursor_view_pos t).1 (cursor_view_pos t).2 true).pix i j) ∧
    (∀ i j, ¬ cell_rect_mem t a b i j →
      ¬ cell_rect_mem t (cursor_view_pos t).1 (cursor_view_pos t).2 i j →
      (grid_render t bufId pix).pix i j = pix i j) := by
  have hmain := cursor_move_frame t bufId pix a b hscroll hdirty hflash hwas
    hbuf hlast hAclean hAfit hAblink hact hvis hhide hBne hBfit hbn
  refine ⟨?_, ?_, ?_⟩
  · intro i j hin
    rw [hmain]
    refine render_cell_outside t _ _ (cursor_view_pos t).1 (cursor_view_pos t).2
      true i j ?_ (fun hmem => hBne (cell_rect_mem_unique t a b
        (cursor_view_pos t).1 (cursor_view_pos t).2 i j hAfit.1 hAfit.2.1
        hin hmem))
    exact hBfit
  · intro i j hin
    rw [hmain]
  · intro i j houtA houtB
    rw [hmain]
    refine (render_cell_outside t _ _ (cursor_view_pos t).1
      (cursor_view_pos t).2 true i j ?_ houtB).trans
      (render_cell_outside t pix _ a b false i j ?_ houtA)
    · exact hBfit
    · exact hAfit

end Foot

namespace Foot

/-- Witness for C5: a concrete 1×2 terminal whose cursor moved from (0, 0)
to (0, 1); the pixel at (5, 5) lies outside both cell rectangles and is
unchanged by the frame. -/
theorem cursor_move_frame_spec_witness :
    term_c5w.render.last_cursor_cell = some (0, 0) ∧
    (grid_render term_c5w 0 pix_white).pix 5 5 = pix_white 5 5 :=
  ⟨rfl,
    (cursor_move_frame_spec term_c5w 0 pix_white 0 0 rfl (fun _ _ => rfl)
      rfl rfl rfl rfl rfl
      ⟨by decide, by decide, trivial, ⟨by decide, by decide⟩,
        ⟨by decide, by decide⟩⟩
      rfl rfl (by decide) rfl (by decide)
      ⟨by decide, by decide, trivial, ⟨by decide, by decide⟩,
        ⟨by decide, by decide⟩⟩
      (by decide)).2.2 5 5
      (fun h => absurd h.2.1 (by decide))
      (fun h => absurd h.2.1 (by decide))⟩

end Foot

namespace Foot

/-- Witness for C7: the concrete all-clean base terminal with an unmoved
cursor; the frame commits nothing and clears the buffer's busy flag. -/
theorem grid_render_clean_release_witness :
    base_term.grid.scroll_damage = [] ∧
    (grid_render base_term 0 pix_white).committed = false ∧
    (grid_render base_term 0 pix_white).buf_busy = false :=
  ⟨rfl, grid_render_clean_release base_term 0 pix_white rfl
    (fun _ _ => rfl) rfl rfl rfl rfl⟩

/-- Counterexample for C9: on the concrete base terminal a failed buffer
acquisition yields no frame output at all — there is no skipped-frame
outcome (and in particular no refresh-request state) as the claim
describes, because grid_render has no failure branch. -/
theorem pool_fail_frame_cex :
    ¬ ∃ out : FrameOut, grid_render_from_pool none base_term pix_white =
      some out :=
  fun ⟨_, h⟩ => Option.noConfusion h

/-- C9: modelled from the spec for the pool acquisition itself
(shm_get_buffer lives outside src/): grid_render uses the acquired buffer
unconditionally — render.c has no branch on the acquisition result — so
when acquisition fails the model produces no frame output; nothing is
committed, and no refresh request is recorded anywhere in this code. -/
theorem pool_fail_skips_frame (t : Term) (pix : Pix) :
    grid_render_from_pool none t pix = none := rfl

end Foot
